import Mathlib

/-!
Verification development for the collatelogs log-collation engine
(`collatelogs/logcollator.py` and `collatelogs/util.py`).

The embedding is shallow:

* Python `datetime.datetime` values are modelled by the `DateTime` structure
  below: Gregorian wall-clock fields plus an optional fixed UTC offset in
  minutes (`tz = none` models a naive datetime).  `pytz` timezone objects are
  modelled as fixed UTC offsets supplied by the primitive table `Prims`
  (daylight-saving shifts are abstracted away; every zone name denotes one
  offset).
* External library primitives (`datetime.strptime`, `dateutil.parser.parse`,
  `strftime`, the timezone database, `tzlocal`) are parameters collected in
  `Prims`; the engine's own logic is translated from the source.
* Compiled regexes are modelled as abstract matching functions
  `String → Option Groups` returning the group dictionary of a successful
  `re.match`, together with the list of static group names
  (`regex.groupindex`).
* Python exceptions become the `PyErr` sum: `valueError` covers `ValueError`
  (including `NoMatchError`/`TimestampParseError` conditions), `parserError`
  covers `dateutil.parser.ParserError` (a `ValueError` subclass that the
  source catches by its own clause first), `assertionError` covers
  `AssertionError`, and `uncaught` covers exception classes the engine never
  catches (`KeyError`, `pytz.UnknownTimeZoneError`, `NameError`).
* File I/O is external: the collation pipeline is modelled from the point
  where `collate` has read each path's lines (`path_map`).
* Python's `set(...)` has an implementation-defined iteration order, so the
  deduplication step is parametrised by a function `setImpl`; a faithful
  instantiation is any function returning the distinct elements of its input
  in some order.
-/

/-- Model of a Python `datetime.datetime`: Gregorian wall-clock fields plus
an optional fixed UTC offset in minutes (`none` = naive). -/
structure DateTime where
  year : Nat
  month : Nat
  day : Nat
  hour : Nat
  minute : Nat
  second : Nat
  microsecond : Nat
  tz : Option Int
deriving Repr, DecidableEq

/-- Gregorian leap-year test. -/
def isLeap (y : Nat) : Bool :=
  decide ((y % 4 = 0 ∧ y % 100 ≠ 0) ∨ y % 400 = 0)

/-- Number of days in month `m` of year `y` (months are 1-based). -/
def daysInMonth (y m : Nat) : Nat :=
  if m = 2 then (if isLeap y then 29 else 28)
  else if m = 4 ∨ m = 6 ∨ m = 9 ∨ m = 11 then 30
  else 31

/-- Days in year `y` that precede the first day of month `m`. -/
def daysBeforeMonth (y m : Nat) : Nat :=
  ((List.range (m - 1)).map (fun i => daysInMonth y (i + 1))).sum

/-- Number of leap years in `1, ..., y - 1`. -/
def leapsBefore (y : Nat) : Nat :=
  (y - 1) / 4 - (y - 1) / 100 + (y - 1) / 400

/-- Day index of a date counted from 0001-01-01 (which has index 0). -/
def dayNumber (d : DateTime) : Nat :=
  365 * (d.year - 1) + leapsBefore d.year + daysBeforeMonth d.year d.month + (d.day - 1)

/-- Validity of the date fields (what `datetime.datetime` enforces,
restricted to years from 1). -/
def ValidDate (d : DateTime) : Prop :=
  1 ≤ d.year ∧ 1 ≤ d.month ∧ d.month ≤ 12 ∧ 1 ≤ d.day ∧ d.day ≤ daysInMonth d.year d.month

instance (d : DateTime) : Decidable (ValidDate d) := by
  unfold ValidDate; infer_instance

/-- Validity of all wall-clock fields. -/
def ValidDT (d : DateTime) : Prop :=
  ValidDate d ∧ d.hour < 24 ∧ d.minute < 60 ∧ d.second < 60 ∧ d.microsecond < 1000000

instance (d : DateTime) : Decidable (ValidDT d) := by
  unfold ValidDT; infer_instance

/-- Calendar successor of a date (time-of-day and timezone unchanged).
This is what `relativedelta(days=1)` does to a `datetime`. -/
def nextDay (d : DateTime) : DateTime :=
  if d.day < daysInMonth d.year d.month then { d with day := d.day + 1 }
  else if d.month < 12 then { d with month := d.month + 1, day := 1 }
  else { d with year := d.year + 1, month := 1, day := 1 }

/-- Calendar predecessor of a date (time-of-day and timezone unchanged). -/
def prevDay (d : DateTime) : DateTime :=
  if 1 < d.day then { d with day := d.day - 1 }
  else if 1 < d.month then { d with month := d.month - 1, day := daysInMonth d.year (d.month - 1) }
  else { d with year := d.year - 1, month := 12, day := 31 }

/-- Shift a date by `k` calendar days. -/
def shiftDate (d : DateTime) (k : Int) : DateTime :=
  if 0 ≤ k then nextDay^[k.toNat] d else prevDay^[(-k).toNat] d

/-- Wall-clock microseconds since 0001-01-01T00:00:00 (timezone ignored). -/
def wallMicros (d : DateTime) : Int :=
  (dayNumber d : Int) * 86400000000
    + ((d.hour * 3600 + d.minute * 60 + d.second : Nat) : Int) * 1000000
    + (d.microsecond : Int)

/-- Absolute instant in microseconds (UTC); a naive datetime is read at
offset 0.  Python compares two aware datetimes by this value. -/
def toAbs (d : DateTime) : Int :=
  wallMicros d - (d.tz.getD 0) * 60000000

/-- Strict `<` on datetimes as Python evaluates it on two aware values. -/
def pyLt (a b : DateTime) : Bool :=
  decide (toAbs a < toAbs b)

/-- Minute-of-day of a datetime after adding `delta` minutes, before any
day rollover. -/
def rawMinutes (d : DateTime) (delta : Int) : Int :=
  ((d.hour * 60 + d.minute : Nat) : Int) + delta

/-- Shift the wall clock of a datetime by `delta` minutes, rolling the date
as needed; seconds, microseconds and the timezone field are unchanged. -/
def addMinutes (d : DateTime) (delta : Int) : DateTime :=
  { shiftDate d (rawMinutes d delta / 1440) with
    hour := (rawMinutes d delta % 1440).toNat / 60,
    minute := (rawMinutes d delta % 1440).toNat % 60 }

/-- Group dictionary of a successful `re.match` (`match.groupdict()`):
captured group name to captured text. -/
def Groups : Type := List (String × String)

instance : DecidableEq Groups := by unfold Groups; infer_instance

/-- Python dict lookup on an association list (last write wins because
`dset` removes the old binding). -/
def dget (d : List (String × String)) (k : String) : Option String :=
  (d.find? (fun p => p.1 == k)).map (fun p => p.2)

/-- Python dict assignment `d[k] = v` (binding order is irrelevant here:
only `dget` observes the dictionary). -/
def dset (d : List (String × String)) (k v : String) : List (String × String) :=
  (d.filter (fun p => !(p.1 == k))) ++ [(k, v)]

/-- Python `d.update(u)`: assign every binding of `u` into `d`. -/
def dmerge (d u : List (String × String)) : List (String × String) :=
  u.foldl (fun acc p => dset acc p.1 p.2) d

/-- Model of one entry of `log_parsing_info`: a compiled schema record.
`run_line_regex` is the compiled `line_regex` (`re.match` returning the
group dictionary), `groupNames` its static named groups
(`regex.groupindex.keys()`).  `matchField` is the mutable `match` key that
`util.match_first` writes onto the record. -/
structure Schema where
  name : String
  groupNames : List String
  run_line_regex : String → Option Groups
  timestamp_input_format : Option String
  timestamp_input_timezone : Option String
  timestamp_output_timezone : Option String
  run_filename_date_regex : Option (String → Option Groups)
  filename_date_format : Option String
  fix_wraparound : Bool
  matchField : Option Groups

/-- Store a group dictionary under the record's `match` key
(`prefix_info['match'] = m.groupdict()` in `util.match_first`). -/
def setMatch (info : Schema) (gd : Groups) : Schema :=
  { info with matchField := some gd }

/-- Run the regex stored under the requested key of a record, if present. -/
def matchAt (proj : Schema → Option (String → Option Groups)) (info : Schema)
    (line : String) : Option Groups :=
  match proj info with
  | none => none
  | some rgx => rgx line

/-- Projection used for `match_first(line, infos, "line_regex")`. -/
def projLine : Schema → Option (String → Option Groups) :=
  fun s => some s.run_line_regex

/-- Projection used for `match_first(path, infos, "filename_date_regex")`. -/
def projFilenameDate : Schema → Option (String → Option Groups) :=
  fun s => s.run_filename_date_regex

/-- Translation of `util.match_first`: try each record's regex in order;
on the first success store the group dictionary onto the record under its
`match` key and return that record; records lacking the requested key are
skipped.  The first component is the post-call state of the record list
(the source mutates the list's records in place). -/
def match_first (line : String) (proj : Schema → Option (String → Option Groups)) :
    List Schema → List Schema × Option Schema
  | [] => ([], none)
  | info :: rest =>
    match matchAt proj info line with
    | some gd => (setMatch info gd :: rest, some (setMatch info gd))
    | none =>
      match match_first line proj rest with
      | (rest2, res) => (info :: rest2, res)

/-- The value `match_first` returns to its caller. -/
def matchFirstResult (line : String) (proj : Schema → Option (String → Option Groups))
    (infos : List Schema) : Option Schema :=
  (match_first line proj infos).2

/-- Parsed form of the output format string, as produced by
`string.Formatter().parse`: a chunk is a literal prefix plus an optional
placeholder name; a trailing literal yields a chunk whose placeholder is
`none` (Python's `None`). -/
def Template : Type := List (String × Option String)

/-- Translation of `util.extract_keywords_from_format_string`: the list of
placeholder names, including the `None` entry a trailing literal produces. -/
def extract_keywords_from_format_string (tmpl : Template) : List (Option String) :=
  tmpl.map (fun c => c.2)

/-- Translation of `util.check_that_regex_is_superset_of_format_string`:
every format keyword must be a named group of this schema's regex or a
supplied meta keyword.  The `None` keyword of a trailing literal is never
a member, exactly as in the source's set comparison. -/
def check_that_regex_is_superset_of_format_string (info : Schema) (meta : List String)
    (tmpl : Template) : Bool :=
  (extract_keywords_from_format_string tmpl).all (fun kw =>
    match kw with
    | some k => (info.groupNames ++ meta).contains k
    | none => false)

/-- Translation of `util.check_that_regexes_are_all_supersets_of_format_string`. -/
def check_that_regexes_are_all_supersets_of_format_string (infos : List Schema)
    (meta : List String) (tmpl : Template) : Bool :=
  infos.all (fun info => check_that_regex_is_superset_of_format_string info meta tmpl)

/-- Expansion of the output format string (`line_output_format.format(**kwargs)`);
`none` models the `KeyError` Python raises for a missing keyword. -/
def formatLine (tmpl : Template) (lookup : String → Option String) : Option String :=
  match tmpl with
  | [] => some ""
  | (lit, none) :: rest =>
    (formatLine rest lookup).map (fun r => lit ++ r)
  | (lit, some k) :: rest =>
    match lookup k, formatLine rest lookup with
    | some v, some r => some (lit ++ v ++ r)
    | _, _ => none

/-- The raw format string starts with the literal text `{timestamp` exactly
when its first parsed chunk has an empty literal and a placeholder whose
name begins with `timestamp` (this is the source's
`line_output_format.startswith("{timestamp")`). -/
def startsWithTimestampLit (tmpl : Template) : Bool :=
  match tmpl with
  | (lit, some f) :: _ => lit == "" && "timestamp".data.isPrefixOf f.data
  | _ => false

/-- Python exception classes the engine distinguishes.  `parserError` is
`dateutil.parser.ParserError`; although it subclasses `ValueError`, the
source lists a clause for it before the `ValueError` clause, so it is
dispatched separately.  `uncaught` covers classes no clause catches
(`KeyError`, `pytz.UnknownTimeZoneError`, `NameError`). -/
inductive PyErr where
  | valueError : String → PyErr
  | parserError : String → PyErr
  | assertionError : String → PyErr
  | uncaught : String → PyErr
deriving Repr, DecidableEq

/-- External primitives: the parsing/formatting library functions and the
timezone database, abstracted as pure tables.  `tzOffset` gives a zone's
fixed UTC offset in minutes; `localOffset` is the `tzlocal` system zone. -/
structure Prims where
  strptime : String → String → Except String DateTime
  duParse : String → Except String DateTime
  strftime : String → DateTime → String
  tzOffset : String → Int
  localOffset : Int

/-- Model of `pytz.timezone(z).localize(dt)`: attach the zone's offset
without changing the wall clock (only ever applied to naive values here). -/
def pytzLocalize (P : Prims) (z : String) (dt : DateTime) : DateTime :=
  { dt with tz := some (P.tzOffset z) }

/-- Model of `dt.astimezone(dest)`: keep the absolute instant, re-express
the wall clock at the destination offset. -/
def astimezone (dt : DateTime) (destOff : Int) : DateTime :=
  let srcOff := dt.tz.getD 0
  let shifted := addMinutes dt (destOff - srcOff)
  { shifted with tz := some destOff }

/-- Translation of `util.convert_timezone`: localize to the origin zone and
convert to the destination zone (the system zone when none is given).
A missing origin zone models `pytz.timezone(None)`, which raises an
exception class the engine never catches. -/
def convert_timezone (P : Prims) (dt : DateTime) (tz_from : Option String)
    (tz_to : Option String) : Except PyErr DateTime :=
  match tz_from with
  | none => .error (.uncaught "pytz UnknownTimeZoneError: None")
  | some src =>
    let destOff : Int :=
      match tz_to with
      | some z => P.tzOffset z
      | none => P.localOffset
    .ok (astimezone (pytzLocalize P src dt) destOff)

/-- The collation engine's state after a successful `LogCollator.__init__`.
`subsecond_digits` is stored by the source but never read in this module,
and `log_paths` only feeds the file-reading step that is external here, so
neither is kept.  `meta_handlers` is the filtered meta-handler table. -/
structure LogCollator where
  line_output_format : Template
  log_parsing_info : List Schema
  timestamp_output_format : Option String
  bad_line_behavior : String
  allow_duplicates : Bool
  strip_lines : Bool
  meta_handlers : List (String × (String → String))

/-- Translation of `LogCollator.__init__`: the checks in source order.
`all_meta_handlers` is the module-level handler table and
`dateutil_available` models `"dateutil" in sys.modules`.  Regex
compilation (`compile_regexes`) is implicit: schemas arrive compiled. -/
def LogCollator.init (all_meta_handlers : List (String × (String → String)))
    (line_output_format : Template) (log_parsing_info : List Schema)
    (timestamp_output_format : Option String) (bad_line_behavior : String)
    (allow_duplicates : Bool) (strip_lines : Bool) (dateutil_available : Bool) :
    Except PyErr LogCollator :=
  if !(startsWithTimestampLit line_output_format) then
    .error (.valueError "line_output_format must start with timestamp")
  else if timestamp_output_format.isSome
      && log_parsing_info.any (fun info => info.timestamp_input_format.isNone)
      && !dateutil_available then
    .error (.valueError "timestamp_output_format requires dateutil")
  else if !(check_that_regexes_are_all_supersets_of_format_string log_parsing_info
      ((all_meta_handlers.filter (fun p =>
        decide (some p.1 ∈ extract_keywords_from_format_string line_output_format))).map
          (fun p => p.1) ++ ["name"]) line_output_format) then
    .error (.valueError "Keywords in prefix output format must be a subset of each prefix regex groups")
  else
    .ok {
      line_output_format := line_output_format
      log_parsing_info := log_parsing_info
      timestamp_output_format := timestamp_output_format
      bad_line_behavior := bad_line_behavior
      allow_duplicates := allow_duplicates
      strip_lines := strip_lines
      meta_handlers := all_meta_handlers.filter (fun p =>
        decide (some p.1 ∈ extract_keywords_from_format_string line_output_format))
    }

/-- Translation of `LogCollator.parse_timestamp`: parse with the fixed
format when one is configured, else with the free-form parser; substitute
the base date when the parse produced the sentinel year 1900 and a base
exists (the rebuilt value is naive, as `datetime(...)` without `tzinfo`);
fail when the year is still 1900.  The first step, shared verbatim with the
claim statements, is the raw library parse: the fixed format when one is
configured (a failure is a plain `ValueError`), else the free-form parser
(a failure is a `ParserError`). -/
def rawParse (P : Prims) (timestamp : String) (timestamp_format : Option String) :
    Except PyErr DateTime :=
  match timestamp_format with
  | some fmt =>
    match P.strptime fmt timestamp with
    | .ok d => .ok d
    | .error e => .error (.valueError e)
  | none =>
    match P.duParse timestamp with
    | .ok d => .ok d
    | .error e => .error (.parserError e)

/-- Body of `LogCollator.parse_timestamp` after the raw parse. -/
def LogCollator.parse_timestamp (P : Prims) (timestamp : String)
    (timestamp_format : Option String) (base_datetime : Option DateTime) :
    Except PyErr DateTime := do
  let parsed ← rawParse P timestamp timestamp_format
  let parsed :=
    match base_datetime with
    | some b =>
      if parsed.year = 1900 then
        { year := b.year, month := b.month, day := b.day,
          hour := parsed.hour, minute := parsed.minute, second := parsed.second,
          microsecond := parsed.microsecond, tz := none }
      else parsed
    | none => parsed
  if parsed.year = 1900 then
    .error (.valueError ("Error parsing " ++ timestamp))
  else
    .ok parsed

/-- Timezone-resolution block of `amend_prefix_parse_timestamp`: an aware
value is left untouched; a naive one is converted when an output zone is
configured, else localized to the input zone or to UTC. -/
def resolve_timezone (P : Prims) (info : Schema) (dt : DateTime) :
    Except PyErr DateTime :=
  if dt.tz.isNone then
    match info.timestamp_output_timezone with
    | some _ =>
      convert_timezone P dt info.timestamp_input_timezone info.timestamp_output_timezone
    | none =>
      match info.timestamp_input_timezone with
      | some iz => .ok (pytzLocalize P iz dt)
      | none => .ok (pytzLocalize P "UTC" dt)
  else
    .ok dt

/-- Wraparound block of `amend_prefix_parse_timestamp`: advance by one
calendar day exactly when the schema's `fix_wraparound` is the literal
`True`, a previous instant exists, and the new instant is strictly
earlier. -/
def fixWraparound (info : Schema) (previous_line_date : Option DateTime)
    (dt : DateTime) : DateTime :=
  match previous_line_date with
  | some prev =>
    if info.fix_wraparound && pyLt dt prev then nextDay dt else dt
  | none => dt

/-- Translation of `LogCollator.amend_prefix_parse_timestamp` (the branch
`collate` uses when a timestamp output format is set; with the format
absent the source's final statement reads an unbound variable, modelled by
the `uncaught` error).  Returns the resolved instant and the reformatted
line. -/
def LogCollator.amend_prefix_parse_timestamp (lc : LogCollator) (P : Prims)
    (line : String) (meta : List (String × String)) (filename_date : Option DateTime)
    (previous_line_date : Option DateTime) : Except PyErr (DateTime × String) := do
  let parsing_info ←
    match matchFirstResult line projLine lc.log_parsing_info with
    | some info => Except.ok info
    | none => Except.error (.valueError ("Line did not match against any of the given regexes: " ++ line))
  let kwargs_from_regex := parsing_info.matchField.getD []
  let kwargs_for_format := dmerge meta kwargs_from_regex
  match lc.timestamp_output_format with
  | none => Except.error (.uncaught "NameError: parsed_timestamp")
  | some out_fmt => do
    let ts ←
      match dget kwargs_for_format "timestamp" with
      | some t => Except.ok t
      | none => Except.error (.uncaught "KeyError: timestamp")
    let parsed ← LogCollator.parse_timestamp P ts parsing_info.timestamp_input_format
      (if previous_line_date.isSome then previous_line_date else filename_date)
    let parsed ← resolve_timezone P parsing_info parsed
    let parsed := fixWraparound parsing_info previous_line_date parsed
    let kwargs_for_format := dset kwargs_for_format "timestamp" (P.strftime out_fmt parsed)
    let kwargs_for_format := dset kwargs_for_format "name" parsing_info.name
    let reformatted ←
      match formatLine lc.line_output_format (dget kwargs_for_format) with
      | some r => Except.ok r
      | none => Except.error (.uncaught "KeyError: format keyword")
    Except.ok (parsed, reformatted)

/-- Translation of `LogCollator.amend_prefix_no_parse_timestamp` (used when
no timestamp output format is set): match, merge keywords, reformat.
Returns the line and the raw group dictionary. -/
def LogCollator.amend_prefix_no_parse_timestamp (lc : LogCollator) (line : String)
    (meta : List (String × String)) : Except PyErr (String × Groups) := do
  let parsing_info ←
    match matchFirstResult line projLine lc.log_parsing_info with
    | some info => Except.ok info
    | none => Except.error (.valueError ("Line did not match against any of the given regexes: " ++ line))
  let kwargs_from_regex := parsing_info.matchField.getD []
  let kwargs_for_format := dmerge meta kwargs_from_regex
  let kwargs_for_format := dset kwargs_for_format "name" parsing_info.name
  let reformatted ←
    match formatLine lc.line_output_format (dget kwargs_for_format) with
    | some r => Except.ok r
    | none => Except.error (.uncaught "KeyError: format keyword")
  Except.ok (reformatted, kwargs_from_regex)

/-- The per-line loop of `process_log_file` in the timestamp-parsing mode:
strip if configured, skip empties, amend; a successful line appends the
record `(instant, text)` and becomes the previous instant.  The exception
dispatch mirrors the source's clause order: `dateutil` parser errors are
written to the console and the line is dropped; `ValueError` is routed
through the bad-line policy, whose `keep` arm binds the line to a local
that is never appended; any other policy value raises `AssertionError`;
other exception classes propagate. -/
def processLinesTS (lc : LogCollator) (P : Prims) (meta : List (String × String))
    (filename_date : Option DateTime) :
    Option DateTime → List String → Except PyErr (List (DateTime × String))
  | _, [] => .ok []
  | prev, line :: rest =>
    let lineEff := if lc.strip_lines then line.trim else line
    if lineEff = "" then processLinesTS lc P meta filename_date prev rest
    else
      match lc.amend_prefix_parse_timestamp P lineEff meta filename_date prev with
      | .ok (ts, processed) => do
        let more ← processLinesTS lc P meta filename_date (some ts) rest
        .ok ((ts, processed) :: more)
      | .error (.parserError _) =>
        processLinesTS lc P meta filename_date prev rest
      | .error (.valueError m) =>
        if lc.bad_line_behavior = "keep" then
          processLinesTS lc P meta filename_date prev rest
        else if lc.bad_line_behavior = "error" then
          .error (.valueError m)
        else if lc.bad_line_behavior = "warn" then
          processLinesTS lc P meta filename_date prev rest
        else if lc.bad_line_behavior = "discard" then
          processLinesTS lc P meta filename_date prev rest
        else
          .error (.assertionError ("Invalid bad_line_behavior " ++ lc.bad_line_behavior))
      | .error e => .error e

/-- The per-line loop of `process_log_file` when no timestamp output format
is set: records are bare formatted strings. -/
def processLinesNoTS (lc : LogCollator) (meta : List (String × String)) :
    List String → Except PyErr (List String)
  | [] => .ok []
  | line :: rest =>
    let lineEff := if lc.strip_lines then line.trim else line
    if lineEff = "" then processLinesNoTS lc meta rest
    else
      match lc.amend_prefix_no_parse_timestamp lineEff meta with
      | .ok (processed, _) => do
        let more ← processLinesNoTS lc meta rest
        .ok (processed :: more)
      | .error (.parserError _) =>
        processLinesNoTS lc meta rest
      | .error (.valueError m) =>
        if lc.bad_line_behavior = "keep" then
          processLinesNoTS lc meta rest
        else if lc.bad_line_behavior = "error" then
          .error (.valueError m)
        else if lc.bad_line_behavior = "warn" then
          processLinesNoTS lc meta rest
        else if lc.bad_line_behavior = "discard" then
          processLinesNoTS lc meta rest
        else
          .error (.assertionError ("Invalid bad_line_behavior " ++ lc.bad_line_behavior))
      | .error e => .error e

/-- Filename-date preamble of `process_log_file`: find the first schema
whose `filename_date_regex` matches the path, require its
`filename_date_format`, re-run the regex, extract the `date` group and
parse it; any parse failure propagates (it happens outside the per-line
`try`). -/
def filenameDateOf (lc : LogCollator) (P : Prims) (log_path : String) :
    Except PyErr (Option DateTime) :=
  match matchFirstResult log_path projFilenameDate lc.log_parsing_info with
  | none => .ok none
  | some parsing_info =>
    match parsing_info.run_filename_date_regex with
    | none => .error (.uncaught "KeyError: filename_date_regex")
    | some fdr =>
      match parsing_info.filename_date_format with
      | none => .error (.valueError "If filename_date_regex is given, filename_date_format must also be given in config!")
      | some fmt =>
        match fdr log_path with
        | none => .error (.valueError ("Failed to parse file path " ++ log_path))
        | some gd =>
          match dget gd "date" with
          | none => .error (.uncaught "KeyError: date")
          | some date_str =>
            match P.strptime fmt date_str with
            | .ok d => .ok (some d)
            | .error e => .error (.valueError e)

/-- Translation of `process_log_file` in timestamp-parsing mode: meta
handlers are applied to the path, the filename date computed, then the
per-line fold runs with fresh per-file state. -/
def LogCollator.process_log_file_ts (lc : LogCollator) (P : Prims) (log_path : String)
    (log_lines : List String) : Except PyErr (List (DateTime × String)) := do
  let path_meta_keywords := lc.meta_handlers.map (fun p => (p.1, p.2 log_path))
  let filename_date ← filenameDateOf lc P log_path
  processLinesTS lc P path_meta_keywords filename_date none log_lines

/-- Translation of `process_log_file` when no timestamp output format is
set. -/
def LogCollator.process_log_file_nots (lc : LogCollator) (P : Prims) (log_path : String)
    (log_lines : List String) : Except PyErr (List String) := do
  let path_meta_keywords := lc.meta_handlers.map (fun p => (p.1, p.2 log_path))
  let _ ← filenameDateOf lc P log_path
  processLinesNoTS lc path_meta_keywords log_lines

/-- Translation of `process_path_map` (timestamp mode): process each file
in map order and concatenate the per-file record lists. -/
def LogCollator.process_path_map_ts (lc : LogCollator) (P : Prims) :
    List (String × List String) → Except PyErr (List (DateTime × String))
  | [] => .ok []
  | (p, ls) :: rest => do
    let a ← lc.process_log_file_ts P p ls
    let b ← lc.process_path_map_ts P rest
    .ok (a ++ b)

/-- Translation of `process_path_map` when no timestamp output format is
set. -/
def LogCollator.process_path_map_nots (lc : LogCollator) (P : Prims) :
    List (String × List String) → Except PyErr (List String)
  | [] => .ok []
  | (p, ls) :: rest => do
    let a ← lc.process_log_file_nots P p ls
    let b ← lc.process_path_map_nots P rest
    .ok (a ++ b)

/-- Stable insertion of `x` into `l` by an integer key: `x` goes before the
first element whose key is not smaller.  Folding this over a list from the
right reproduces a stable ascending sort, which is the guarantee Python's
`sorted` gives. -/
def insortBy (key : α → Int) (x : α) : List α → List α
  | [] => [x]
  | y :: ys => if key x ≤ key y then x :: y :: ys else y :: insortBy key x ys

/-- Stable ascending sort by an integer key (model of Python's `sorted`
with a `key` function). -/
def sortByKey (key : α → Int) (l : List α) : List α :=
  l.foldr (insortBy key) []

/-- Sort key `sorted(log_lines, key=lambda x: x[0])` uses: the resolved
instant of a record. -/
def recKey (r : DateTime × String) : Int :=
  toAbs r.1

/-- Stable insertion for the plain lexicographic string sort
(`sorted(log_lines)` in the no-timestamp branch). -/
def insortStr (x : String) : List String → List String
  | [] => [x]
  | y :: ys => if decide (x ≤ y) then x :: y :: ys else y :: insortStr x ys

/-- Model of Python's `sorted` on strings. -/
def sortStrings (l : List String) : List String :=
  l.foldr insortStr []

/-- Total number of lines over the path map (`total_lines` in `collate`). -/
def totalLines (pathMap : List (String × List String)) : Nat :=
  (pathMap.map (fun p => p.2.length)).sum

/-- Translation of `LogCollator.collate` in timestamp mode, from the point
where the files' lines are in hand: bail on an empty line pool, process
all files, deduplicate via Python's `set` (modelled by `setImpl`) unless
duplicates are allowed, sort by resolved instant and strip the instants. -/
def LogCollator.collate_ts (lc : LogCollator) (P : Prims)
    (setImpl : List (DateTime × String) → List (DateTime × String))
    (pathMap : List (String × List String)) : Except PyErr (List String) :=
  if totalLines pathMap = 0 then .ok []
  else do
    let log_lines ← lc.process_path_map_ts P pathMap
    let log_lines := if lc.allow_duplicates then log_lines else setImpl log_lines
    .ok ((sortByKey recKey log_lines).map (fun r => r.2))

/-- Translation of `LogCollator.collate` when no timestamp output format is
set: records are formatted strings, deduplicated and sorted
lexicographically. -/
def LogCollator.collate_nots (lc : LogCollator) (P : Prims)
    (setImpl : List String → List String)
    (pathMap : List (String × List String)) : Except PyErr (List String) :=
  if totalLines pathMap = 0 then .ok []
  else do
    let log_lines ← lc.process_path_map_nots P pathMap
    let log_lines := if lc.allow_duplicates then log_lines else setImpl log_lines
    .ok (sortStrings log_lines)

/-- A conforming realization of Python's `set(...)` iteration: the distinct
elements in last-occurrence order. -/
def pySetList [DecidableEq α] : List α → List α
  | [] => []
  | x :: xs => if x ∈ xs then pySetList xs else x :: pySetList xs

/-- Specification every faithful `set(...)` model satisfies: the result is
duplicate-free and has exactly the input's elements. -/
def PySetSpec [DecidableEq α] (setImpl : List α → List α) : Prop :=
  ∀ l : List α, (setImpl l).Nodup ∧ ∀ x : α, x ∈ setImpl l ↔ x ∈ l

/-- Concrete primitive table used by the witnesses: a small lookup-table
`strptime`, a free-form parser that fails on unknown text, a `strftime`
that renders the format string followed by the hour, and a fixed-offset
timezone database. -/
def exPrims : Prims where
  strptime := fun fmt s =>
    if fmt = "%H:%M" && s = "05:30" then
      .ok { year := 2024, month := 1, day := 1, hour := 5, minute := 30,
            second := 0, microsecond := 0, tz := none }
    else if fmt = "%H:%M" && s = "05:45" then
      .ok { year := 2024, month := 1, day := 1, hour := 5, minute := 45,
            second := 0, microsecond := 0, tz := none }
    else if fmt = "%H:%M:%S" && s = "23:59:59" then
      .ok { year := 1900, month := 1, day := 1, hour := 23, minute := 59,
            second := 59, microsecond := 0, tz := none }
    else if fmt = "%H:%M:%S" && s = "00:00:01" then
      .ok { year := 1900, month := 1, day := 1, hour := 0, minute := 0,
            second := 1, microsecond := 0, tz := none }
    else if fmt = "%Y-%m-%d" && s = "2024-01-01" then
      .ok { year := 2024, month := 1, day := 1, hour := 0, minute := 0,
            second := 0, microsecond := 0, tz := none }
    else .error ("time data does not match format: " ++ s)
  duParse := fun s =>
    if s = "2024-06-01 10:00" then
      .ok { year := 2024, month := 6, day := 1, hour := 10, minute := 0,
            second := 0, microsecond := 0, tz := none }
    else .error ("ParserError: Unknown string format: " ++ s)
  strftime := fun fmt dt => fmt ++ toString dt.hour
  tzOffset := fun z => if z = "UTC" then 0 else if z = "EST" then -300 else 60
  localOffset := 120

/-- Table regex for the witness schema: lines of the shape `HH:MM msg`. -/
def exRegexA : String → Option Groups := fun s =>
  if s = "05:30 a" then some [("timestamp", "05:30"), ("msg", "a")]
  else if s = "05:30 b" then some [("timestamp", "05:30"), ("msg", "b")]
  else if s = "05:45 a" then some [("timestamp", "05:45"), ("msg", "a")]
  else none

/-- Witness schema with a fixed input format and no timezone or wraparound
configuration. -/
def exSchemaA : Schema where
  name := "web"
  groupNames := ["timestamp", "msg"]
  run_line_regex := exRegexA
  timestamp_input_format := some "%H:%M"
  timestamp_input_timezone := none
  timestamp_output_timezone := none
  run_filename_date_regex := none
  filename_date_format := none
  fix_wraparound := false
  matchField := none

/-- Witness schema with no fixed input format, so its timestamps go through
the free-form parser. -/
def exSchemaF : Schema where
  name := "free"
  groupNames := ["timestamp", "msg"]
  run_line_regex := fun s =>
    if s = "freeform X" then some [("timestamp", "badts"), ("msg", "X")]
    else if s = "nomatch" then none
    else none
  timestamp_input_format := none
  timestamp_input_timezone := none
  timestamp_output_timezone := none
  run_filename_date_regex := none
  filename_date_format := none
  fix_wraparound := false
  matchField := none

/-- Witness output template, the parse of `"{timestamp} {msg}"`. -/
def exTmpl : Template := [("", some "timestamp"), (" ", some "msg")]

/-- Witness engine in timestamp mode with the strict policy.  Stripping is
disabled so that concrete runs evaluate by kernel reduction (Lean's
`String.trim` is defined by well-founded recursion, which the kernel does
not unfold; the engine's stripping behaviour is itself exercised through
the general theorems, which treat the stripped line abstractly). -/
def exLC : LogCollator where
  line_output_format := exTmpl
  log_parsing_info := [exSchemaA]
  timestamp_output_format := some "T"
  bad_line_behavior := "error"
  allow_duplicates := false
  strip_lines := false
  meta_handlers := []

/-- Engine over the free-form schema, strict policy. -/
def exLCF : LogCollator :=
  { exLC with log_parsing_info := [exSchemaF] }

/-- Engine with the `keep` policy and no timestamp parsing. -/
def exLCKeep : LogCollator :=
  { exLC with timestamp_output_format := none, bad_line_behavior := "keep" }

/-- Path map with two records whose resolved instants coincide but whose
formatted texts differ. -/
def exMap1 : List (String × List String) := [("a.log", ["05:30 a", "05:30 b"])]

/-- Path map with two records whose resolved instants differ but whose
formatted texts coincide. -/
def exMap2 : List (String × List String) := [("a.log", ["05:30 a", "05:45 a"])]

/-- A conforming `set(...)` realization that happens to iterate in the
reverse of `pySetList`: Python promises nothing about the order. -/
def setRev (l : List (DateTime × String)) : List (DateTime × String) :=
  (pySetList l).reverse

/-- Template whose raw text is `" {timestamp} {msg}"`: its first
placeholder is `timestamp` but the string does not start with the literal
`{timestamp`. -/
def exTmplSp : Template := [(" ", some "timestamp"), (" ", some "msg")]

/-- Claim-side reading of the spec's template rule: the first placeholder
of the format string is named exactly `timestamp`. -/
def firstPlaceholderIsTimestamp_claim (tmpl : Template) : Bool :=
  match tmpl.filterMap (fun c => c.2) with
  | f :: _ => f == "timestamp"
  | [] => false

/-- Claim-side reading of the spec's template rule: every placeholder lies
in the union of all schemas' capture-group names, the meta-handler keys
and `name`. -/
def placeholdersWithinUnion_claim (tmpl : Template) (infos : List Schema)
    (metaKeys : List String) : Bool :=
  (tmpl.filterMap (fun c => c.2)).all (fun k =>
    (infos.foldr (fun i acc => i.groupNames ++ acc) []).contains k
      || metaKeys.contains k || k == "name")

/-- Time-of-day and timezone fields of a datetime, bundled so frame lemmas
about the date shifters can state that they are untouched. -/
def timeOf (d : DateTime) : Nat × Nat × Nat × Nat × Option Int :=
  (d.hour, d.minute, d.second, d.microsecond, d.tz)

/-- Resolved instant of the line `05:30 a` under the witness engine. -/
def exDT530 : DateTime :=
  { year := 2024, month := 1, day := 1, hour := 5, minute := 30,
    second := 0, microsecond := 0, tz := some 0 }

/-- Resolved instant of the line `05:45 a` under the witness engine. -/
def exDT545 : DateTime :=
  { year := 2024, month := 1, day := 1, hour := 5, minute := 45,
    second := 0, microsecond := 0, tz := some 0 }

/-- Merged record pool the witness engine produces from `exMap1`. -/
def exMerged1 : List (DateTime × String) :=
  [(exDT530, "T5 a"), (exDT530, "T5 b")]

/-- Merged record pool the witness engine produces from `exMap2`. -/
def exMerged2 : List (DateTime × String) :=
  [(exDT530, "T5 a"), (exDT545, "T5 a")]

theorem daysInMonth_pos (y m : Nat) : 1 ≤ daysInMonth y m := by
  unfold daysInMonth
  split
  · split <;> omega
  · split <;> omega

theorem daysInMonth_le (y m : Nat) : daysInMonth y m ≤ 31 := by
  unfold daysInMonth
  split
  · split <;> omega
  · split <;> omega

theorem daysBeforeMonth_succ (y m : Nat) (h : 1 ≤ m) :
    daysBeforeMonth y (m + 1) = daysBeforeMonth y m + daysInMonth y m := by
  unfold daysBeforeMonth
  have h1 : m + 1 - 1 = (m - 1) + 1 := by omega
  have h2 : m - 1 + 1 = m := by omega
  rw [h1, List.range_succ, List.map_append, List.sum_append]
  simp [h2]

theorem leapsBefore_succ (y : Nat) (hy : 1 ≤ y) :
    (isLeap y = true → leapsBefore (y + 1) = leapsBefore y + 1)
    ∧ (isLeap y = false → leapsBefore (y + 1) = leapsBefore y) := by
  constructor
  · intro hb
    have h : (y % 4 = 0 ∧ y % 100 ≠ 0) ∨ y % 400 = 0 := of_decide_eq_true hb
    unfold leapsBefore
    omega
  · intro hb
    have h : ¬((y % 4 = 0 ∧ y % 100 ≠ 0) ∨ y % 400 = 0) := of_decide_eq_false hb
    unfold leapsBefore
    omega

theorem daysBeforeMonth_twelve (y : Nat) :
    (isLeap y = true → daysBeforeMonth y 12 = 335)
    ∧ (isLeap y = false → daysBeforeMonth y 12 = 334) := by
  constructor <;> intro hb <;>
    simp [daysBeforeMonth, daysInMonth, hb, List.range_succ]

theorem nextDay_timeOf (d : DateTime) : timeOf (nextDay d) = timeOf d := by
  unfold nextDay
  split
  · rfl
  · split <;> rfl

theorem prevDay_timeOf (d : DateTime) : timeOf (prevDay d) = timeOf d := by
  unfold prevDay
  split
  · rfl
  · split <;> rfl

theorem nextDay_valid (d : DateTime) (h : ValidDate d) : ValidDate (nextDay d) := by
  obtain ⟨hy, hm1, hm2, hd1, hd2⟩ := h
  unfold nextDay
  split
  · next hlt =>
    refine ⟨hy, hm1, hm2, ?_, ?_⟩
    · show 1 ≤ d.day + 1
      omega
    · show d.day + 1 ≤ daysInMonth d.year d.month
      omega
  · next hge =>
    split
    · next hmlt =>
      refine ⟨hy, ?_, ?_, ?_, ?_⟩
      · show 1 ≤ d.month + 1
        omega
      · show d.month + 1 ≤ 12
        omega
      · show 1 ≤ 1
        omega
      · show 1 ≤ daysInMonth d.year (d.month + 1)
        exact daysInMonth_pos _ _
    · next hmge =>
      refine ⟨?_, ?_, ?_, ?_, ?_⟩
      · show 1 ≤ d.year + 1
        omega
      · show 1 ≤ 1
        omega
      · show 1 ≤ 12
        omega
      · show 1 ≤ 1
        omega
      · show 1 ≤ daysInMonth (d.year + 1) 1
        exact daysInMonth_pos _ _

theorem nextDay_dayNumber (d : DateTime) (h : ValidDate d) :
    dayNumber (nextDay d) = dayNumber d + 1 := by
  obtain ⟨hy, hm1, hm2, hd1, hd2⟩ := h
  unfold nextDay
  split
  · next hlt =>
    show 365 * (d.year - 1) + leapsBefore d.year + daysBeforeMonth d.year d.month
        + (d.day + 1 - 1) = dayNumber d + 1
    unfold dayNumber
    omega
  · next hge =>
    split
    · next hmlt =>
      show 365 * (d.year - 1) + leapsBefore d.year + daysBeforeMonth d.year (d.month + 1)
          + (1 - 1) = dayNumber d + 1
      have hB := daysBeforeMonth_succ d.year d.month hm1
      unfold dayNumber
      omega
    · next hmge =>
      show 365 * (d.year + 1 - 1) + leapsBefore (d.year + 1) + daysBeforeMonth (d.year + 1) 1
          + (1 - 1) = dayNumber d + 1
      have h12 : d.month = 12 := by omega
      have hdim : daysInMonth d.year 12 = 31 := rfl
      have hday : d.day = 31 := by
        rw [h12] at hd2 hge
        omega
      have hB1 : daysBeforeMonth (d.year + 1) 1 = 0 := rfl
      unfold dayNumber
      rw [h12, hday, hB1]
      cases hb : isLeap d.year
      · have hB12 := (daysBeforeMonth_twelve d.year).2 hb
        have hL := (leapsBefore_succ d.year hy).2 hb
        omega
      · have hB12 := (daysBeforeMonth_twelve d.year).1 hb
        have hL := (leapsBefore_succ d.year hy).1 hb
        omega

theorem prevDay_spec (d : DateTime) (h : ValidDate d) (h1 : 1 ≤ dayNumber d) :
    ValidDate (prevDay d) ∧ dayNumber (prevDay d) + 1 = dayNumber d := by
  obtain ⟨hy, hm1, hm2, hd1, hd2⟩ := h
  unfold prevDay
  split
  · next hdgt =>
    constructor
    · refine ⟨hy, hm1, hm2, ?_, ?_⟩
      · show 1 ≤ d.day - 1
        omega
      · show d.day - 1 ≤ daysInMonth d.year d.month
        omega
    · show 365 * (d.year - 1) + leapsBefore d.year + daysBeforeMonth d.year d.month
          + (d.day - 1 - 1) + 1 = dayNumber d
      unfold dayNumber
      omega
  · next hdle =>
    split
    · next hmgt =>
      have hB := daysBeforeMonth_succ d.year (d.month - 1) (by omega)
      have hm' : d.month - 1 + 1 = d.month := by omega
      rw [hm'] at hB
      have hpos := daysInMonth_pos d.year (d.month - 1)
      constructor
      · refine ⟨hy, ?_, ?_, ?_, ?_⟩
        · show 1 ≤ d.month - 1
          omega
        · show d.month - 1 ≤ 12
          omega
        · show 1 ≤ daysInMonth d.year (d.month - 1)
          exact hpos
        · show daysInMonth d.year (d.month - 1) ≤ daysInMonth d.year (d.month - 1)
          omega
      · show 365 * (d.year - 1) + leapsBefore d.year + daysBeforeMonth d.year (d.month - 1)
            + (daysInMonth d.year (d.month - 1) - 1) + 1 = dayNumber d
        unfold dayNumber
        omega
    · next hmle =>
      have hmeq : d.month = 1 := by omega
      have hdeq : d.day = 1 := by omega
      have hzero : d.month = 1 → d.day = 1 → d.year = 1 → dayNumber d = 0 := by
        intro e1 e2 e3
        unfold dayNumber
        rw [e1, e2, e3]
        rfl
      have hy2 : 2 ≤ d.year := by
        by_contra hlt
        have e3 : d.year = 1 := by omega
        have := hzero hmeq hdeq e3
        omega
      have hB12 := daysBeforeMonth_twelve (d.year - 1)
      have hL := leapsBefore_succ (d.year - 1) (by omega)
      have hy' : d.year - 1 + 1 = d.year := by omega
      rw [hy'] at hL
      have hdim31 : daysInMonth (d.year - 1) 12 = 31 := rfl
      constructor
      · refine ⟨?_, ?_, ?_, ?_, ?_⟩
        · show 1 ≤ d.year - 1
          omega
        · show 1 ≤ 12
          omega
        · show 12 ≤ 12
          omega
        · show 1 ≤ 31
          omega
        · show 31 ≤ daysInMonth (d.year - 1) 12
          omega
      · show 365 * (d.year - 1 - 1) + leapsBefore (d.year - 1) + daysBeforeMonth (d.year - 1) 12
            + (31 - 1) + 1 = dayNumber d
        unfold dayNumber
        rw [hmeq, hdeq]
        have hB1 : daysBeforeMonth d.year 1 = 0 := rfl
        rw [hB1]
        cases hb : isLeap (d.year - 1)
        · have e1 := hB12.2 hb
          have e2 := hL.2 hb
          omega
        · have e1 := hB12.1 hb
          have e2 := hL.1 hb
          omega

theorem nextDay_iter (n : Nat) (d : DateTime) (h : ValidDate d) :
    ValidDate (nextDay^[n] d) ∧ dayNumber (nextDay^[n] d) = dayNumber d + n
    ∧ timeOf (nextDay^[n] d) = timeOf d := by
  induction n generalizing d with
  | zero =>
    rw [Function.iterate_zero_apply]
    exact ⟨h, by omega, rfl⟩
  | succ n ih =>
    rw [Function.iterate_succ_apply]
    obtain ⟨hv, hn, ht⟩ := ih (nextDay d) (nextDay_valid d h)
    refine ⟨hv, ?_, ?_⟩
    · rw [hn, nextDay_dayNumber d h]
      omega
    · rw [ht, nextDay_timeOf]

theorem prevDay_iter (n : Nat) (d : DateTime) (h : ValidDate d) (hn : n ≤ dayNumber d) :
    ValidDate (prevDay^[n] d) ∧ dayNumber (prevDay^[n] d) = dayNumber d - n
    ∧ timeOf (prevDay^[n] d) = timeOf d := by
  induction n generalizing d with
  | zero =>
    rw [Function.iterate_zero_apply]
    exact ⟨h, by omega, rfl⟩
  | succ n ih =>
    rw [Function.iterate_succ_apply]
    obtain ⟨hv, hd⟩ := prevDay_spec d h (by omega)
    obtain ⟨hv2, hn2, ht2⟩ := ih (prevDay d) hv (by omega)
    refine ⟨hv2, by omega, ?_⟩
    · rw [ht2, prevDay_timeOf]

theorem shiftDate_spec (d : DateTime) (k : Int) (h : ValidDate d)
    (hk : 0 ≤ (dayNumber d : Int) + k) :
    ValidDate (shiftDate d k) ∧ ((dayNumber (shiftDate d k) : Int) = (dayNumber d : Int) + k)
    ∧ timeOf (shiftDate d k) = timeOf d := by
  unfold shiftDate
  split
  · next h0 =>
    obtain ⟨hv, hn, ht⟩ := nextDay_iter k.toNat d h
    refine ⟨hv, ?_, ht⟩
    rw [hn]
    omega
  · next h0 =>
    obtain ⟨hv, hn, ht⟩ := prevDay_iter (-k).toNat d h (by omega)
    refine ⟨hv, ?_, ht⟩
    rw [hn]
    omega

theorem dayNumber_ge_of_year (d : DateTime) (h2 : 2 ≤ d.year) : 365 ≤ dayNumber d := by
  unfold dayNumber
  omega

theorem wallMicros_build (s : DateTime) (X Y : Nat) :
    wallMicros { s with hour := X, minute := Y } =
      (dayNumber s : Int) * 86400000000
        + ((X * 3600 + Y * 60 + s.second : Nat) : Int) * 1000000
        + (s.microsecond : Int) := rfl

theorem addMinutes_spec (d : DateTime) (delta : Int) (h : ValidDT d)
    (h1 : -2880 ≤ delta) (h2 : delta ≤ 2880) (hroom : 2 ≤ dayNumber d) :
    wallMicros (addMinutes d delta) = wallMicros d + delta * 60000000
    ∧ (addMinutes d delta).tz = d.tz
    ∧ ValidDT (addMinutes d delta) := by
  obtain ⟨hv, hh, hm, hs, hus⟩ := h
  have hrm1 : -2880 ≤ rawMinutes d delta := by
    unfold rawMinutes
    omega
  have hrm2 : rawMinutes d delta ≤ 4319 := by
    unfold rawMinutes
    push_cast
    omega
  obtain ⟨hv2, hn2, ht2⟩ := shiftDate_spec d (rawMinutes d delta / 1440) hv (by omega)
  have hsec : (shiftDate d (rawMinutes d delta / 1440)).second = d.second :=
    congrArg (fun t => t.2.2.1) ht2
  have hmic : (shiftDate d (rawMinutes d delta / 1440)).microsecond = d.microsecond :=
    congrArg (fun t => t.2.2.2.1) ht2
  have htz : (shiftDate d (rawMinutes d delta / 1440)).tz = d.tz :=
    congrArg (fun t => t.2.2.2.2) ht2
  refine ⟨?_, ?_, ?_⟩
  · show wallMicros { shiftDate d (rawMinutes d delta / 1440) with
        hour := (rawMinutes d delta % 1440).toNat / 60,
        minute := (rawMinutes d delta % 1440).toNat % 60 } = wallMicros d + delta * 60000000
    rw [wallMicros_build, hsec, hmic]
    unfold wallMicros
    rw [hn2]
    unfold rawMinutes
    push_cast
    omega
  · show (shiftDate d (rawMinutes d delta / 1440)).tz = d.tz
    exact htz
  · refine ⟨hv2, ?_, ?_, ?_, ?_⟩
    · show (rawMinutes d delta % 1440).toNat / 60 < 24
      omega
    · show (rawMinutes d delta % 1440).toNat % 60 < 60
      omega
    · show (shiftDate d (rawMinutes d delta / 1440)).second < 60
      rw [hsec]
      exact hs
    · show (shiftDate d (rawMinutes d delta / 1440)).microsecond < 1000000
      rw [hmic]
      exact hus

theorem astimezone_spec (dt : DateTime) (destOff : Int) (h : ValidDT dt)
    (hy : 2 ≤ dt.year)
    (hsrc1 : -1440 ≤ dt.tz.getD 0) (hsrc2 : dt.tz.getD 0 ≤ 1440)
    (hd1 : -1440 ≤ destOff) (hd2 : destOff ≤ 1440) :
    toAbs (astimezone dt destOff) = toAbs dt
    ∧ (astimezone dt destOff).tz = some destOff
    ∧ ValidDT (astimezone dt destOff) := by
  have hroom : 2 ≤ dayNumber dt := by
    have := dayNumber_ge_of_year dt hy
    omega
  obtain ⟨hw, htz, hvt⟩ := addMinutes_spec dt (destOff - dt.tz.getD 0) h (by omega) (by omega) hroom
  refine ⟨?_, rfl, ?_⟩
  · show wallMicros { addMinutes dt (destOff - dt.tz.getD 0) with tz := some destOff }
        - ((some destOff).getD 0) * 60000000 = toAbs dt
    have hwm : wallMicros { addMinutes dt (destOff - dt.tz.getD 0) with tz := some destOff }
        = wallMicros (addMinutes dt (destOff - dt.tz.getD 0)) := rfl
    rw [hwm, hw]
    unfold toAbs
    have : ((some destOff).getD 0) = destOff := rfl
    rw [this]
    ring
  · obtain ⟨hv2, hh2, hm2, hs2, hus2⟩ := hvt
    exact ⟨hv2, hh2, hm2, hs2, hus2⟩

theorem nextDay_toAbs (d : DateTime) (h : ValidDate d) :
    toAbs (nextDay d) = toAbs d + 86400000000 := by
  unfold toAbs wallMicros
  have hn := nextDay_dayNumber d h
  have ht := nextDay_timeOf d
  have hh : (nextDay d).hour = d.hour := congrArg (fun t => t.1) ht
  have hm : (nextDay d).minute = d.minute := congrArg (fun t => t.2.1) ht
  have hs : (nextDay d).second = d.second := congrArg (fun t => t.2.2.1) ht
  have hus : (nextDay d).microsecond = d.microsecond := congrArg (fun t => t.2.2.2.1) ht
  have htz : (nextDay d).tz = d.tz := congrArg (fun t => t.2.2.2.2) ht
  rw [hn, hh, hm, hs, hus, htz]
  push_cast
  ring

theorem insortBy_perm (key : α → Int) (x : α) (l : List α) :
    List.Perm (insortBy key x l) (x :: l) := by
  induction l with
  | nil => simp [insortBy]
  | cons y ys ih =>
    unfold insortBy
    split
    · exact List.Perm.refl _
    · exact List.Perm.trans (List.Perm.cons y ih) (List.Perm.swap x y ys)

theorem sortByKey_perm (key : α → Int) (l : List α) :
    List.Perm (sortByKey key l) l := by
  induction l with
  | nil => exact List.Perm.refl _
  | cons x xs ih =>
    have hs : sortByKey key (x :: xs) = insortBy key x (sortByKey key xs) := rfl
    rw [hs]
    exact List.Perm.trans (insortBy_perm key x (sortByKey key xs)) (List.Perm.cons x ih)

theorem insortBy_pairwise (key : α → Int) (x : α) (l : List α)
    (h : List.Pairwise (fun a b => key a ≤ key b) l) :
    List.Pairwise (fun a b => key a ≤ key b) (insortBy key x l) := by
  induction l with
  | nil => simp [insortBy]
  | cons y ys ih =>
    rcases List.pairwise_cons.mp h with ⟨hy, hys⟩
    unfold insortBy
    split
    · next hle =>
      refine List.pairwise_cons.mpr ⟨?_, h⟩
      intro b hb
      rcases List.mem_cons.mp hb with hb1 | hb2
      · rw [hb1]
        exact hle
      · exact le_trans hle (hy b hb2)
    · next hgt =>
      refine List.pairwise_cons.mpr ⟨?_, ih hys⟩
      intro b hb
      have hb2 : b ∈ x :: ys := (insortBy_perm key x ys).mem_iff.mp hb
      rcases List.mem_cons.mp hb2 with hb3 | hb4
      · rw [hb3]
        omega
      · exact hy b hb4

theorem sortByKey_pairwise (key : α → Int) (l : List α) :
    List.Pairwise (fun a b => key a ≤ key b) (sortByKey key l) := by
  induction l with
  | nil => simp [sortByKey]
  | cons x xs ih =>
    have hs : sortByKey key (x :: xs) = insortBy key x (sortByKey key xs) := rfl
    rw [hs]
    exact insortBy_pairwise key x (sortByKey key xs) ih

theorem filter_insortBy_of_eq (key : α → Int) (x : α) (l : List α) (k : Int)
    (hk : key x = k) :
    (insortBy key x l).filter (fun a => key a == k)
      = x :: l.filter (fun a => key a == k) := by
  induction l with
  | nil =>
    simp [insortBy, List.filter, hk]
  | cons y ys ih =>
    unfold insortBy
    split
    · next hle =>
      have hx : (key x == k) = true := by simp [hk]
      simp [List.filter_cons, hx]
    · next hgt =>
      have hy : (key y == k) = false := by
        simp
        omega
      simp only [List.filter_cons, hy]
      rw [ih]
      simp

theorem filter_insortBy_of_ne (key : α → Int) (x : α) (l : List α) (k : Int)
    (hk : key x ≠ k) :
    (insortBy key x l).filter (fun a => key a == k)
      = l.filter (fun a => key a == k) := by
  have hx : (key x == k) = false := by simp [hk]
  induction l with
  | nil =>
    simp [insortBy, List.filter_cons, hx]
  | cons y ys ih =>
    unfold insortBy
    split
    · next hle =>
      simp [List.filter_cons, hx]
    · next hgt =>
      simp only [List.filter_cons]
      rw [ih]

theorem sortByKey_filter_key (key : α → Int) (l : List α) (k : Int) :
    (sortByKey key l).filter (fun a => key a == k)
      = l.filter (fun a => key a == k) := by
  induction l with
  | nil => rfl
  | cons x xs ih =>
    have hs : sortByKey key (x :: xs) = insortBy key x (sortByKey key xs) := rfl
    rw [hs]
    by_cases hx : key x = k
    · rw [filter_insortBy_of_eq key x (sortByKey key xs) k hx, ih]
      have hxb : (key x == k) = true := by simp [hx]
      simp [List.filter_cons, hxb]
    · rw [filter_insortBy_of_ne key x (sortByKey key xs) k hx, ih]
      have hxb : (key x == k) = false := by simp [hx]
      simp [List.filter_cons, hxb]

theorem pySetList_mem [DecidableEq α] (l : List α) (x : α) :
    x ∈ pySetList l ↔ x ∈ l := by
  induction l with
  | nil => simp [pySetList]
  | cons y ys ih =>
    unfold pySetList
    split
    · next hmem =>
      rw [ih]
      constructor
      · intro h
        exact List.mem_cons_of_mem y h
      · intro h
        rcases List.mem_cons.mp h with h1 | h2
        · rw [h1]
          exact hmem
        · exact h2
    · next hmem =>
      simp [ih]

theorem pySetList_nodup [DecidableEq α] (l : List α) : (pySetList l).Nodup := by
  induction l with
  | nil => simp [pySetList]
  | cons y ys ih =>
    unfold pySetList
    split
    · exact ih
    · next hmem =>
      refine List.nodup_cons.mpr ⟨?_, ih⟩
      rw [pySetList_mem]
      exact hmem

theorem pySetList_spec [DecidableEq α] : PySetSpec (pySetList (α := α)) :=
  fun l => ⟨pySetList_nodup l, fun x => pySetList_mem l x⟩

theorem setRev_spec : PySetSpec setRev := by
  intro l
  constructor
  · unfold setRev
    exact List.nodup_reverse.mpr (pySetList_nodup l)
  · intro x
    unfold setRev
    rw [List.mem_reverse]
    exact pySetList_mem l x

theorem processLinesTS_nil (lc : LogCollator) (P : Prims) (meta : List (String × String))
    (fd : Option DateTime) (prev : Option DateTime) :
    processLinesTS lc P meta fd prev [] = .ok [] := rfl

theorem processLinesTS_cons_empty (lc : LogCollator) (P : Prims)
    (meta : List (String × String)) (fd prev : Option DateTime) (line : String)
    (rest : List String)
    (h : (if lc.strip_lines then line.trim else line) = "") :
    processLinesTS lc P meta fd prev (line :: rest)
      = processLinesTS lc P meta fd prev rest := by
  simp [processLinesTS, h]

theorem processLinesTS_cons_ok (lc : LogCollator) (P : Prims)
    (meta : List (String × String)) (fd prev : Option DateTime) (line : String)
    (rest : List String) (ts : DateTime) (pl : String)
    (h : (if lc.strip_lines then line.trim else line) ≠ "")
    (ha : lc.amend_prefix_parse_timestamp P (if lc.strip_lines then line.trim else line) meta fd prev = .ok (ts, pl)) :
    processLinesTS lc P meta fd prev (line :: rest)
      = match processLinesTS lc P meta fd (some ts) rest with
        | .ok more => .ok ((ts, pl) :: more)
        | .error er => .error er := by
  simp only [processLinesTS, ha, h]
  simp [Except.bind]
  cases processLinesTS lc P meta fd (some ts) rest <;> rfl

theorem processLinesTS_cons_parseErr (lc : LogCollator) (P : Prims)
    (meta : List (String × String)) (fd prev : Option DateTime) (line : String)
    (rest : List String) (m : String)
    (h : (if lc.strip_lines then line.trim else line) ≠ "")
    (ha : lc.amend_prefix_parse_timestamp P (if lc.strip_lines then line.trim else line) meta fd prev = .error (.parserError m)) :
    processLinesTS lc P meta fd prev (line :: rest)
      = processLinesTS lc P meta fd prev rest := by
  simp [processLinesTS, ha, h]

theorem processLinesTS_cons_value (lc : LogCollator) (P : Prims)
    (meta : List (String × String)) (fd prev : Option DateTime) (line : String)
    (rest : List String) (m : String)
    (h : (if lc.strip_lines then line.trim else line) ≠ "")
    (ha : lc.amend_prefix_parse_timestamp P (if lc.strip_lines then line.trim else line) meta fd prev = .error (.valueError m)) :
    processLinesTS lc P meta fd prev (line :: rest)
      = (if lc.bad_line_behavior = "keep" then processLinesTS lc P meta fd prev rest
         else if lc.bad_line_behavior = "error" then .error (.valueError m)
         else if lc.bad_line_behavior = "warn" then processLinesTS lc P meta fd prev rest
         else if lc.bad_line_behavior = "discard" then processLinesTS lc P meta fd prev rest
         else .error (.assertionError ("Invalid bad_line_behavior " ++ lc.bad_line_behavior))) := by
  simp [processLinesTS, ha, h]

theorem processLinesTS_cons_other (lc : LogCollator) (P : Prims)
    (meta : List (String × String)) (fd prev : Option DateTime) (line : String)
    (rest : List String) (e : PyErr)
    (h : (if lc.strip_lines then line.trim else line) ≠ "")
    (hp : ∀ m, e ≠ .parserError m) (hv : ∀ m, e ≠ .valueError m)
    (ha : lc.amend_prefix_parse_timestamp P (if lc.strip_lines then line.trim else line) meta fd prev = .error e) :
    processLinesTS lc P meta fd prev (line :: rest) = .error e := by
  cases e with
  | valueError m => exact absurd rfl (hv m)
  | parserError m => exact absurd rfl (hp m)
  | assertionError m => simp [processLinesTS, ha, h]
  | uncaught m => simp [processLinesTS, ha, h]

theorem processLinesTS_invalid_policy (lc : LogCollator) (P : Prims)
    (meta : List (String × String)) (fd : Option DateTime)
    (h1 : lc.bad_line_behavior ≠ "keep") (h2 : lc.bad_line_behavior ≠ "error")
    (h3 : lc.bad_line_behavior ≠ "warn") (h4 : lc.bad_line_behavior ≠ "discard") :
    ∀ (lines : List String) (prev : Option DateTime),
      processLinesTS lc P meta fd prev lines
          = processLinesTS { lc with bad_line_behavior := "discard" } P meta fd prev lines
      ∨ ∃ m, processLinesTS lc P meta fd prev lines = .error (.assertionError m) := by
  intro lines
  induction lines with
  | nil => intro prev; left; rfl
  | cons line rest ih =>
    intro prev
    have hstrip : ({ lc with bad_line_behavior := "discard" } : LogCollator).strip_lines
        = lc.strip_lines := rfl
    by_cases hemp : (if lc.strip_lines then line.trim else line) = ""
    · rw [processLinesTS_cons_empty lc P meta fd prev line rest hemp,
        processLinesTS_cons_empty { lc with bad_line_behavior := "discard" } P meta fd prev line rest hemp]
      exact ih prev
    · cases ha : lc.amend_prefix_parse_timestamp P (if lc.strip_lines then line.trim else line) meta fd prev with
      | ok pr =>
        have ha2 : LogCollator.amend_prefix_parse_timestamp { lc with bad_line_behavior := "discard" } P
            (if lc.strip_lines then line.trim else line) meta fd prev = .ok pr := ha
        rw [processLinesTS_cons_ok lc P meta fd prev line rest pr.1 pr.2 hemp (by rw [ha]),
          processLinesTS_cons_ok { lc with bad_line_behavior := "discard" } P meta fd prev line rest pr.1 pr.2 hemp (by rw [ha2])]
        rcases ih (some pr.1) with heq | ⟨m, herr⟩
        · rw [heq]
          left
          rfl
        · rw [herr]
          right
          exact ⟨m, rfl⟩
      | error e =>
        cases e with
        | parserError m =>
          rw [processLinesTS_cons_parseErr lc P meta fd prev line rest m hemp ha,
            processLinesTS_cons_parseErr { lc with bad_line_behavior := "discard" } P meta fd prev line rest m hemp ha]
          exact ih prev
        | valueError m =>
          rw [processLinesTS_cons_value lc P meta fd prev line rest m hemp ha]
          rw [if_neg h1, if_neg h2, if_neg h3, if_neg h4]
          right
          exact ⟨_, rfl⟩
        | assertionError m =>
          rw [processLinesTS_cons_other lc P meta fd prev line rest _ hemp
              (by intro x hx; cases hx) (by intro x hx; cases hx) ha,
            processLinesTS_cons_other { lc with bad_line_behavior := "discard" } P meta fd prev line rest _ hemp
              (by intro x hx; cases hx) (by intro x hx; cases hx) ha]
          left
          rfl
        | uncaught m =>
          rw [processLinesTS_cons_other lc P meta fd prev line rest _ hemp
              (by intro x hx; cases hx) (by intro x hx; cases hx) ha,
            processLinesTS_cons_other { lc with bad_line_behavior := "discard" } P meta fd prev line rest _ hemp
              (by intro x hx; cases hx) (by intro x hx; cases hx) ha]
          left
          rfl

/-- Claim C8, amended: matching a line tries the schemas in configuration
order and selects the first whose regex matches; but the match is not
side-effect-free and does not return the captured values separately — the
group dictionary is written onto the matched schema record's `match` field
(the post-call record list differs from the input exactly at that record)
and the mutated record itself is returned. -/
theorem claim_C8_amended (line : String)
    (proj : Schema → Option (String → Option Groups)) (infos : List Schema) :
    ((match_first line proj infos).2 = none →
      (match_first line proj infos).1 = infos
      ∧ ∀ info ∈ infos, matchAt proj info line = none)
    ∧ (∀ r, (match_first line proj infos).2 = some r →
      ∃ k info0 gd, infos[k]? = some info0
        ∧ matchAt proj info0 line = some gd
        ∧ (∀ j info1, j < k → infos[j]? = some info1 → matchAt proj info1 line = none)
        ∧ r = setMatch info0 gd
        ∧ (match_first line proj infos).1 = infos.set k r) := by
  induction infos with
  | nil =>
    constructor
    · intro _
      exact ⟨rfl, by intro info h; cases h⟩
    · intro r hr
      simp [match_first] at hr
  | cons info rest ih =>
    obtain ⟨ih1, ih2⟩ := ih
    cases hma : matchAt proj info line with
    | some gd =>
      have heq : match_first line proj (info :: rest)
          = (setMatch info gd :: rest, some (setMatch info gd)) := by
        simp [match_first, hma]
      constructor
      · intro hnone
        rw [heq] at hnone
        cases hnone
      · intro r hr
        rw [heq] at hr
        have hrr : r = setMatch info gd := by
          cases hr
          rfl
        refine ⟨0, info, gd, by simp, hma, ?_, hrr, ?_⟩
        · intro j info1 hj _
          omega
        · rw [heq, hrr]
          rfl
    | none =>
      have heq : match_first line proj (info :: rest)
          = (info :: (match_first line proj rest).1, (match_first line proj rest).2) := by
        simp only [match_first, hma]
      constructor
      · intro hnone
        rw [heq] at hnone
        obtain ⟨ha, hb⟩ := ih1 hnone
        constructor
        · rw [heq, ha]
        · intro i hi
          rcases List.mem_cons.mp hi with h1 | h2
          · rw [h1]
            exact hma
          · exact hb i h2
      · intro r hr
        rw [heq] at hr
        obtain ⟨k, info0, gd, h1, h2, h3, h4, h5⟩ := ih2 r hr
        refine ⟨k + 1, info0, gd, ?_, h2, ?_, h4, ?_⟩
        · simpa using h1
        · intro j info1 hj hji
          cases j with
          | zero =>
            have : info1 = info := by simpa using hji.symm
            rw [this]
            exact hma
          | succ j2 =>
            exact h3 j2 info1 (by omega) (by simpa using hji)
        · rw [heq]
          have hset : (info :: rest).set (k + 1) r = info :: rest.set k r := rfl
          rw [hset, h5]

theorem exceptBind_ok {ε α β : Type} (a : α) (f : α → Except ε β) :
    (Except.ok a >>= f : Except ε β) = f a := rfl

theorem exceptBind_err {ε α β : Type} (e : ε) (f : α → Except ε β) :
    (Except.error e >>= f : Except ε β) = Except.error e := rfl

/-- Claim C4: when the raw parse yields the sentinel year 1900, the
year/month/day are substituted from the base date when one exists (the
result keeps the parsed time of day and is naive); with no base the
resolution fails with a `ValueError` (the `TimestampParseError` class);
a successful resolution never carries the sentinel year; and the caller
prefers the previous resolved instant over the filename date as base —
when a previous instant exists the filename date is irrelevant to the
amend step. -/
theorem claim_C4 (P : Prims) (ts : String) (fmt : Option String)
    (base : Option DateTime) (p : DateTime) :
    (rawParse P ts fmt = .ok p → p.year = 1900 → base = none →
      LogCollator.parse_timestamp P ts fmt base = .error (.valueError ("Error parsing " ++ ts)))
    ∧ (∀ b, rawParse P ts fmt = .ok p → p.year = 1900 → base = some b → b.year ≠ 1900 →
      LogCollator.parse_timestamp P ts fmt base
        = .ok { year := b.year, month := b.month, day := b.day, hour := p.hour,
                minute := p.minute, second := p.second, microsecond := p.microsecond,
                tz := none })
    ∧ (∀ r, LogCollator.parse_timestamp P ts fmt base = .ok r → r.year ≠ 1900)
    ∧ (∀ (lc : LogCollator) (line : String) (meta : List (String × String))
        (fd1 fd2 : Option DateTime) (q : DateTime),
        lc.amend_prefix_parse_timestamp P line meta fd1 (some q)
          = lc.amend_prefix_parse_timestamp P line meta fd2 (some q)) := by
  refine ⟨?_, ?_, ?_, ?_⟩
  · intro hraw hyear hbase
    rw [hbase]
    unfold LogCollator.parse_timestamp
    rw [hraw, exceptBind_ok]
    simp [hyear]
  · intro b hraw hyear hbase hb
    rw [hbase]
    unfold LogCollator.parse_timestamp
    rw [hraw, exceptBind_ok]
    simp [hyear, hb]
  · intro r hr
    unfold LogCollator.parse_timestamp at hr
    cases hraw : rawParse P ts fmt with
    | error e =>
      rw [hraw, exceptBind_err] at hr
      cases hr
    | ok q =>
      rw [hraw, exceptBind_ok] at hr
      cases base with
      | none =>
        by_cases hq : q.year = 1900
        · simp [hq] at hr
        · simp [hq] at hr
          rw [← hr]
          exact hq
      | some b =>
        by_cases hq : q.year = 1900
        · by_cases hb : b.year = 1900
          · simp [hq, hb] at hr
          · simp [hq, hb] at hr
            rw [← hr]
            simpa using hb
        · simp [hq] at hr
          rw [← hr]
          exact hq
  · intro lc line meta fd1 fd2 q
    rfl

/-- Witness for claim C4: the sentinel parse `23:59:59` fails without a
base date, resolves against the base date 2024-01-01 keeping its time of
day, the resolved value does not carry the sentinel year, and with a
previous instant present the filename date does not affect the amend
step. -/
theorem claim_C4_witness :
    LogCollator.parse_timestamp exPrims "23:59:59" (some "%H:%M:%S") none
      = .error (.valueError ("Error parsing " ++ "23:59:59"))
    ∧ LogCollator.parse_timestamp exPrims "23:59:59" (some "%H:%M:%S") (some exDT530)
      = .ok { year := 2024, month := 1, day := 1, hour := 23, minute := 59, second := 59,
              microsecond := 0, tz := none }
    ∧ ({ year := 2024, month := 1, day := 1, hour := 23, minute := 59, second := 59,
         microsecond := 0, tz := none } : DateTime).year ≠ 1900
    ∧ exLC.amend_prefix_parse_timestamp exPrims "05:30 a" [] none (some exDT530)
      = exLC.amend_prefix_parse_timestamp exPrims "05:30 a" [] (some exDT545) (some exDT530) := by
  have hp : DateTime.year
      { year := 1900, month := 1, day := 1, hour := 23, minute := 59,
        second := 59, microsecond := 0, tz := none } = 1900 := rfl
  have h1 := claim_C4 exPrims "23:59:59" (some "%H:%M:%S") none
    { year := 1900, month := 1, day := 1, hour := 23, minute := 59, second := 59,
      microsecond := 0, tz := none }
  have h2 := claim_C4 exPrims "23:59:59" (some "%H:%M:%S") (some exDT530)
    { year := 1900, month := 1, day := 1, hour := 23, minute := 59, second := 59,
      microsecond := 0, tz := none }
  have he := h2.2.1 exDT530 rfl hp rfl (by decide)
  exact ⟨h1.1 rfl hp rfl, he, h2.2.2.1 _ he, h1.2.2.2 exLC "05:30 a" [] none (some exDT545) exDT530⟩

/-- Claim C5: timezone resolution is case-exact — an aware instant is left
untouched; a naive instant with both zones configured is localized to the
input zone and converted to the output zone (the absolute instant of the
localized value is preserved and the zone becomes the output offset); with
only an input zone it is localized to it without conversion (wall clock
unchanged); with no zones it is localized to UTC. -/
theorem claim_C5 (P : Prims) (info : Schema) (dt : DateTime) :
    (dt.tz ≠ none → resolve_timezone P info dt = .ok dt)
    ∧ (∀ iz oz, dt.tz = none → info.timestamp_input_timezone = some iz →
        info.timestamp_output_timezone = some oz →
        ValidDT dt → 2 ≤ dt.year →
        -1440 ≤ P.tzOffset iz → P.tzOffset iz ≤ 1440 →
        -1440 ≤ P.tzOffset oz → P.tzOffset oz ≤ 1440 →
        resolve_timezone P info dt = .ok (astimezone (pytzLocalize P iz dt) (P.tzOffset oz))
        ∧ toAbs (astimezone (pytzLocalize P iz dt) (P.tzOffset oz)) = toAbs (pytzLocalize P iz dt)
        ∧ (astimezone (pytzLocalize P iz dt) (P.tzOffset oz)).tz = some (P.tzOffset oz))
    ∧ (∀ iz, dt.tz = none → info.timestamp_input_timezone = some iz →
        info.timestamp_output_timezone = none →
        resolve_timezone P info dt = .ok (pytzLocalize P iz dt)
        ∧ wallMicros (pytzLocalize P iz dt) = wallMicros dt
        ∧ (pytzLocalize P iz dt).tz = some (P.tzOffset iz))
    ∧ (dt.tz = none → info.timestamp_input_timezone = none →
        info.timestamp_output_timezone = none →
        resolve_timezone P info dt = .ok (pytzLocalize P "UTC" dt)) := by
  refine ⟨?_, ?_, ?_, ?_⟩
  · intro htz
    unfold resolve_timezone
    cases hdt : dt.tz with
    | none => exact absurd hdt htz
    | some o => simp [hdt]
  · intro iz oz htz hiz hoz hv hy hi1 hi2 ho1 ho2
    have hloc : ValidDT (pytzLocalize P iz dt) := hv
    have hy2 : 2 ≤ (pytzLocalize P iz dt).year := hy
    have hsrc : (pytzLocalize P iz dt).tz.getD 0 = P.tzOffset iz := rfl
    obtain ⟨ha, hb, _⟩ := astimezone_spec (pytzLocalize P iz dt) (P.tzOffset oz) hloc hy2
      (by rw [hsrc]; exact hi1) (by rw [hsrc]; exact hi2) ho1 ho2
    refine ⟨?_, ha, hb⟩
    unfold resolve_timezone
    rw [htz, hiz, hoz]
    unfold convert_timezone
    rfl
  · intro iz htz hiz hoz
    refine ⟨?_, rfl, rfl⟩
    unfold resolve_timezone
    rw [htz, hiz, hoz]
    rfl
  · intro htz hiz hoz
    unfold resolve_timezone
    rw [htz, hiz, hoz]
    rfl

/-- Witness for claim C5: converting the naive instant 2024-01-01T05:30
from EST to CET keeps the absolute instant and sets the CET offset;
localizing without an output zone and defaulting to UTC behave as stated;
an aware instant is untouched. -/
theorem claim_C5_witness :
    resolve_timezone exPrims
        { exSchemaA with
          timestamp_input_timezone := some "EST",
          timestamp_output_timezone := some "CET" }
        { exDT530 with tz := none }
      = .ok (astimezone (pytzLocalize exPrims "EST" { exDT530 with tz := none }) (exPrims.tzOffset "CET"))
    ∧ toAbs (astimezone (pytzLocalize exPrims "EST" { exDT530 with tz := none }) (exPrims.tzOffset "CET"))
      = toAbs (pytzLocalize exPrims "EST" { exDT530 with tz := none })
    ∧ resolve_timezone exPrims exSchemaA exDT530 = .ok exDT530 := by
  have h := claim_C5 exPrims
    { exSchemaA with
      timestamp_input_timezone := some "EST",
      timestamp_output_timezone := some "CET" }
    { exDT530 with tz := none }
  have h2 := claim_C5 exPrims exSchemaA exDT530
  obtain ⟨ha, hb, _⟩ := h.2.1 "EST" "CET" rfl rfl rfl (by decide) (by decide)
    (by decide) (by decide) (by decide) (by decide)
  exact ⟨ha, hb, h2.1 (by decide)⟩


/-- Claim C6 (code bug): under the `keep` policy a line matching no schema
is supposed to pass through into the final output, but the engine's `keep`
arm binds the raw line to a local that is never appended, so the line is
dropped: the run over the single unmatched line `garbage` returns an empty
output.  The `discard` policy gives the same empty output and the `error`
policy aborts, as specified. -/
theorem claim_C6_keep_bug :
    exLCKeep.bad_line_behavior = "keep"
    ∧ matchFirstResult "garbage" projLine exLCKeep.log_parsing_info = none
    ∧ exLCKeep.collate_nots exPrims pySetList [("f.log", ["garbage"])] = .ok []
    ∧ LogCollator.collate_nots { exLCKeep with bad_line_behavior := "discard" } exPrims
        pySetList [("f.log", ["garbage"])] = .ok []
    ∧ LogCollator.collate_nots { exLCKeep with bad_line_behavior := "error" } exPrims
        pySetList [("f.log", ["garbage"])]
      = .error (.valueError "Line did not match against any of the given regexes: garbage") :=
  ⟨rfl, rfl, rfl, rfl, rfl⟩

/-- Claim C7, amended: a `ValueError`-class timestamp failure on a matched
line (fixed-format parse failure or unresolved sentinel) is governed by
the bad-line policy — `error` aborts with that error, `keep`, `warn` and
`discard` drop the line; but a free-form (dateutil) parse failure is
dispatched by its own clause before the policy: the line is logged and
dropped regardless of the configured policy. -/
theorem claim_C7_amended (lc : LogCollator) (P : Prims) (meta : List (String × String))
    (fd prev : Option DateTime) (line : String) (rest : List String) (m : String)
    (hne : (if lc.strip_lines then line.trim else line) ≠ "") :
    (lc.amend_prefix_parse_timestamp P (if lc.strip_lines then line.trim else line) meta fd prev
        = .error (.valueError m) →
      (lc.bad_line_behavior = "error" →
        processLinesTS lc P meta fd prev (line :: rest) = .error (.valueError m))
      ∧ (lc.bad_line_behavior = "keep" ∨ lc.bad_line_behavior = "warn"
          ∨ lc.bad_line_behavior = "discard" →
        processLinesTS lc P meta fd prev (line :: rest)
          = processLinesTS lc P meta fd prev rest))
    ∧ (lc.amend_prefix_parse_timestamp P (if lc.strip_lines then line.trim else line) meta fd prev
        = .error (.parserError m) →
      processLinesTS lc P meta fd prev (line :: rest)
        = processLinesTS lc P meta fd prev rest) := by
  constructor
  · intro ha
    constructor
    · intro hpol
      rw [processLinesTS_cons_value lc P meta fd prev line rest m hne ha, hpol]
      simp
    · intro hpol
      rw [processLinesTS_cons_value lc P meta fd prev line rest m hne ha]
      rcases hpol with h | h | h <;> rw [h] <;> simp
  · intro ha
    exact processLinesTS_cons_parseErr lc P meta fd prev line rest m hne ha

/-- Witness for claim C7 at concrete inputs: a no-match `ValueError` aborts
under the `error` policy and is dropped under `discard`; a free-form parse
failure is dropped even under the `error` policy. -/
theorem claim_C7_amended_witness :
    processLinesTS exLC exPrims [] none none ["zzz"]
      = .error (.valueError "Line did not match against any of the given regexes: zzz")
    ∧ processLinesTS { exLC with bad_line_behavior := "discard" } exPrims [] none none ["zzz"]
      = .ok []
    ∧ processLinesTS exLCF exPrims [] none none ["freeform X"] = .ok [] := by
  have h1 := (claim_C7_amended exLC exPrims [] none none "zzz" []
    "Line did not match against any of the given regexes: zzz" (by decide)).1 rfl
  have h2 := (claim_C7_amended { exLC with bad_line_behavior := "discard" } exPrims [] none none
    "zzz" [] "Line did not match against any of the given regexes: zzz" (by decide)).1 rfl
  have h3 := (claim_C7_amended exLCF exPrims [] none none "freeform X" []
    "ParserError: Unknown string format: badts" (by decide)).2 rfl
  exact ⟨h1.1 rfl, (h2.2 (Or.inr (Or.inr rfl))).trans rfl, h3.trans rfl⟩

/-- Claim C7 counterexample: under the `error` policy, a matched line whose
timestamp goes through the free-form parser and fails does not abort the
run — the file is processed to completion with the line silently dropped,
so the failure is not governed by the bad-line policy. -/
theorem claim_C7_counterexample :
    exLCF.bad_line_behavior = "error"
    ∧ (exSchemaF.run_line_regex "freeform X").isSome = true
    ∧ exSchemaF.timestamp_input_format = none
    ∧ rawParse exPrims "badts" none
      = .error (.parserError "ParserError: Unknown string format: badts")
    ∧ exLCF.process_log_file_ts exPrims "f.log" ["freeform X"] = .ok [] :=
  ⟨rfl, rfl, rfl, rfl, rfl⟩

/-- Claim C8 counterexample: matching is not side-effect-free — after
`match_first` succeeds on a line, the schema list has been mutated (the
matched record now carries the group dictionary on its `match` field), so
the post-call list differs from the input list. -/
theorem claim_C8_counterexample :
    (match_first "05:30 a" projLine [exSchemaA]).1 ≠ [exSchemaA] := by
  intro h
  have h1 : (match_first "05:30 a" projLine [exSchemaA]).1
      = [setMatch exSchemaA [("timestamp", "05:30"), ("msg", "a")]] := rfl
  rw [h1] at h
  have h2 : setMatch exSchemaA [("timestamp", "05:30"), ("msg", "a")] = exSchemaA := by
    injection h
  have h3 : (some [("timestamp", "05:30"), ("msg", "a")] : Option Groups) = none :=
    congrArg Schema.matchField h2
  cases h3

/-- Witness for the amended claim C8 at a concrete input: the first (and
only) schema matches, nothing precedes it, and the returned record is the
input record with the group dictionary stored on its `match` field, the
list being updated at that position. -/
theorem claim_C8_amended_witness :
    ∃ k info0 gd, ([exSchemaA][k]? = some info0)
      ∧ matchAt projLine info0 "05:30 a" = some gd
      ∧ (∀ j info1, j < k → [exSchemaA][j]? = some info1 →
          matchAt projLine info1 "05:30 a" = none)
      ∧ (match_first "05:30 a" projLine [exSchemaA]).2 = some (setMatch info0 gd)
      ∧ (match_first "05:30 a" projLine [exSchemaA]).1 = [exSchemaA].set k (setMatch info0 gd) := by
  obtain ⟨k, info0, gd, h1, h2, h3, h4, h5⟩ :=
    (claim_C8_amended "05:30 a" projLine [exSchemaA]).2
      (setMatch exSchemaA [("timestamp", "05:30"), ("msg", "a")]) rfl
  refine ⟨k, info0, gd, h1, h2, h3, ?_, ?_⟩
  · rw [← h4]
    rfl
  · rw [← h4]
    exact h5

/-- Claim C9, amended: with the free-form parser available, construction
succeeds exactly when the format string literally starts with
`{timestamp` (not merely when its first placeholder is `timestamp`: a
leading literal is rejected even then) and, for every schema separately
(not the union over schemas), the parsed keyword list — which contains a
`None` marker whenever the template ends in a literal — is contained in
that schema's group names plus the selected meta-handler keys and `name`.
The check happens at construction: an accepted engine stores the template,
schemas and policy unchanged, before any line is seen. -/
theorem claim_C9_amended (H : List (String × (String → String))) (tmpl : Template)
    (infos : List Schema) (tsf : Option String) (pol : String) (dup strip : Bool) :
    ((∃ lc, LogCollator.init H tmpl infos tsf pol dup strip true = .ok lc)
      ↔ (startsWithTimestampLit tmpl = true
        ∧ check_that_regexes_are_all_supersets_of_format_string infos
            ((H.filter (fun p =>
              decide (some p.1 ∈ extract_keywords_from_format_string tmpl))).map
                (fun p => p.1) ++ ["name"]) tmpl = true))
    ∧ (∀ lc, LogCollator.init H tmpl infos tsf pol dup strip true = .ok lc →
        lc.line_output_format = tmpl ∧ lc.log_parsing_info = infos
          ∧ lc.bad_line_behavior = pol) := by
  unfold LogCollator.init
  cases h1 : startsWithTimestampLit tmpl with
  | false => simp
  | true =>
    cases h2 : check_that_regexes_are_all_supersets_of_format_string infos
        ((H.filter (fun p =>
          decide (some p.1 ∈ extract_keywords_from_format_string tmpl))).map
            (fun p => p.1) ++ ["name"]) tmpl with
    | false => simp
    | true =>
      refine ⟨by simp, ?_⟩
      intro lc hlc
      simp only [Bool.not_true, Bool.and_false] at hlc
      have h3 : Except.ok
            { line_output_format := tmpl, log_parsing_info := infos,
              timestamp_output_format := tsf, bad_line_behavior := pol,
              allow_duplicates := dup, strip_lines := strip,
              meta_handlers := H.filter (fun p =>
                decide (some p.1 ∈ extract_keywords_from_format_string tmpl)) }
          = Except.ok lc := hlc
      cases h3
      exact ⟨rfl, rfl, rfl⟩

/-- Witness for the amended claim C9: a conforming template and schema are
accepted and the engine stores the template unchanged. -/
theorem claim_C9_amended_witness :
    (∃ lc, LogCollator.init [] exTmpl [exSchemaA] (some "T") "error" false true true = .ok lc)
    ∧ ∀ lc, LogCollator.init [] exTmpl [exSchemaA] (some "T") "error" false true true = .ok lc →
        lc.line_output_format = exTmpl := by
  have h := claim_C9_amended [] exTmpl [exSchemaA] (some "T") "error" false true
  exact ⟨h.1.mpr ⟨rfl, rfl⟩, fun lc hlc => (h.2 lc hlc).1⟩

/-- Claim C9 counterexample: the template parsed from `" {timestamp} {msg}"`
has `timestamp` as its first placeholder and all its placeholders lie in
the schema's capture groups, yet construction is rejected, because the
source checks for the literal prefix `{timestamp` of the raw string. -/
theorem claim_C9_counterexample :
    firstPlaceholderIsTimestamp_claim exTmplSp = true
    ∧ placeholdersWithinUnion_claim exTmplSp [exSchemaA] [] = true
    ∧ LogCollator.init [] exTmplSp [exSchemaA] (some "T") "error" false true true
      = .error (.valueError "line_output_format must start with timestamp") :=
  ⟨rfl, rfl, rfl⟩

/-- Claim C10, amended: engine construction never validates the bad-line
policy value — whenever construction succeeds under some policy string it
succeeds under `error` too; when the policy is invalid, a per-file run
either equals the run under `discard` (in particular when every line
processes normally or fails only through the free-form parser clause) or
raises `AssertionError`; and the `AssertionError` is raised exactly at a
line failing with a `ValueError`-class error (no schema match,
fixed-format parse failure or unresolved sentinel) — not at construction
time, and not at lines whose free-form parse fails, which are dropped
without consulting the policy. -/
theorem claim_C10_amended :
    (∀ (H : List (String × (String → String))) (tmpl : Template) (infos : List Schema)
      (tsf : Option String) (pol : String) (dup strip du : Bool) (lc : LogCollator),
      LogCollator.init H tmpl infos tsf pol dup strip du = .ok lc →
      ∃ lc2, LogCollator.init H tmpl infos tsf "error" dup strip du = .ok lc2)
    ∧ (∀ (lc : LogCollator) (P : Prims) (meta : List (String × String))
      (fd : Option DateTime) (lines : List String) (prev : Option DateTime),
      lc.bad_line_behavior ≠ "keep" → lc.bad_line_behavior ≠ "error" →
      lc.bad_line_behavior ≠ "warn" → lc.bad_line_behavior ≠ "discard" →
      processLinesTS lc P meta fd prev lines
        = processLinesTS { lc with bad_line_behavior := "discard" } P meta fd prev lines
      ∨ ∃ m, processLinesTS lc P meta fd prev lines = .error (.assertionError m))
    ∧ (∀ (lc : LogCollator) (P : Prims) (meta : List (String × String))
      (fd prev : Option DateTime) (line : String) (rest : List String) (m : String),
      lc.bad_line_behavior ≠ "keep" → lc.bad_line_behavior ≠ "error" →
      lc.bad_line_behavior ≠ "warn" → lc.bad_line_behavior ≠ "discard" →
      (if lc.strip_lines then line.trim else line) ≠ "" →
      lc.amend_prefix_parse_timestamp P (if lc.strip_lines then line.trim else line) meta fd prev
        = .error (.valueError m) →
      processLinesTS lc P meta fd prev (line :: rest)
        = .error (.assertionError ("Invalid bad_line_behavior " ++ lc.bad_line_behavior))) := by
  refine ⟨?_, ?_, ?_⟩
  · intro H tmpl infos tsf pol dup strip du lc h
    unfold LogCollator.init at h ⊢
    cases h1 : startsWithTimestampLit tmpl with
    | false =>
      rw [h1] at h
      simp at h
    | true =>
      rw [h1] at h
      cases h2 : (tsf.isSome && infos.any (fun info => info.timestamp_input_format.isNone) && !du) with
      | true =>
        rw [h2] at h
        simp at h
      | false =>
        rw [h2] at h
        cases h3 : check_that_regexes_are_all_supersets_of_format_string infos
            ((H.filter (fun p =>
              decide (some p.1 ∈ extract_keywords_from_format_string tmpl))).map
                (fun p => p.1) ++ ["name"]) tmpl with
        | false =>
          rw [h3] at h
          simp at h
        | true =>
          exact ⟨_, rfl⟩
  · exact fun lc P meta fd lines prev h1 h2 h3 h4 =>
      processLinesTS_invalid_policy lc P meta fd h1 h2 h3 h4 lines prev
  · intro lc P meta fd prev line rest m h1 h2 h3 h4 hne ha
    rw [processLinesTS_cons_value lc P meta fd prev line rest m hne ha]
    rw [if_neg h1, if_neg h2, if_neg h3, if_neg h4]

/-- Witness for the amended claim C10 at concrete inputs: construction with
the invalid policy `bogus` succeeds (and so does the `error` engine); a
line failing with a no-match `ValueError` under `bogus` raises
`AssertionError`; a run over a free-form-failing line is covered by the
run/assertion disjunction. -/
theorem claim_C10_witness :
    (∃ lc2, LogCollator.init [] exTmpl [exSchemaA] (some "T") "error" false true true = .ok lc2)
    ∧ processLinesTS { exLCF with bad_line_behavior := "bogus" } exPrims [] none none ["nomatch"]
      = .error (.assertionError ("Invalid bad_line_behavior " ++ "bogus"))
    ∧ (processLinesTS { exLCF with bad_line_behavior := "bogus" } exPrims [] none none ["freeform X"]
        = processLinesTS
            { { exLCF with bad_line_behavior := "bogus" } with bad_line_behavior := "discard" }
            exPrims [] none none ["freeform X"]
      ∨ ∃ m, processLinesTS { exLCF with bad_line_behavior := "bogus" } exPrims [] none none
          ["freeform X"] = .error (.assertionError m)) := by
  obtain ⟨p1, p2, p3⟩ := claim_C10_amended
  refine ⟨?_, ?_, ?_⟩
  · exact p1 [] exTmpl [exSchemaA] (some "T") "bogus" false true true _ rfl
  · exact p3 { exLCF with bad_line_behavior := "bogus" } exPrims [] none none "nomatch" []
      "Line did not match against any of the given regexes: nomatch"
      (by decide) (by decide) (by decide) (by decide) (by decide) rfl
  · exact p2 { exLCF with bad_line_behavior := "bogus" } exPrims [] none ["freeform X"] none
      (by decide) (by decide) (by decide) (by decide)

/-- Claim C10 counterexample: with an invalid policy value, a matched line
whose free-form timestamp parse fails is a failing line, yet no
`AssertionError` is raised — the run completes normally and the line is
dropped, because the dateutil clause bypasses the policy dispatch. -/
theorem claim_C10_counterexample :
    (exSchemaF.run_line_regex "freeform X").isSome = true
    ∧ rawParse exPrims "badts" none
      = .error (.parserError "ParserError: Unknown string format: badts")
    ∧ LogCollator.process_log_file_ts { exLCF with bad_line_behavior := "bogus" } exPrims
        "f.log" ["freeform X"] = .ok [] :=
  ⟨rfl, rfl, rfl⟩

theorem nodup_subset_length_le [DecidableEq α] (l1 l2 : List α) (h1 : l1.Nodup)
    (h2 : ∀ x, x ∈ l1 → x ∈ l2) : l1.length ≤ l2.length := by
  have e1 : l1.toFinset.card = l1.length := List.toFinset_card_of_nodup h1
  have e2 : l1.toFinset ⊆ l2.toFinset := by
    intro x hx
    exact List.mem_toFinset.mpr (h2 x (List.mem_toFinset.mp hx))
  calc l1.length = l1.toFinset.card := e1.symm
    _ ≤ l2.toFinset.card := Finset.card_le_card e2
    _ ≤ l2.length := List.toFinset_card_le l2

/-- Claim C1, amended: with timestamp resolution requested, the output of
`collate` is the merged record pool — deduplicated through the set step
unless duplicates are allowed — sorted by resolved instant ascending.
When `allow_duplicates` is set the sort is stable over the merged pool:
records with equal instants keep their insertion order from the per-file
fold (the filter-equality below).  When deduplication runs, the records
are still sorted by instant, but ties follow the set's iteration order,
which Python does not fix, so insertion order is not guaranteed. -/
theorem claim_C1_amended (lc : LogCollator) (P : Prims)
    (setImpl : List (DateTime × String) → List (DateTime × String))
    (pathMap : List (String × List String)) (merged : List (DateTime × String))
    (hproc : lc.process_path_map_ts P pathMap = .ok merged)
    (htot : totalLines pathMap ≠ 0) :
    (lc.allow_duplicates = true →
      lc.collate_ts P setImpl pathMap = .ok ((sortByKey recKey merged).map (fun r => r.2))
      ∧ List.Pairwise (fun a b => recKey a ≤ recKey b) (sortByKey recKey merged)
      ∧ ∀ k : Int, (sortByKey recKey merged).filter (fun r => recKey r == k)
          = merged.filter (fun r => recKey r == k))
    ∧ (lc.allow_duplicates = false →
      lc.collate_ts P setImpl pathMap
        = .ok ((sortByKey recKey (setImpl merged)).map (fun r => r.2))
      ∧ List.Pairwise (fun a b => recKey a ≤ recKey b) (sortByKey recKey (setImpl merged))) := by
  constructor
  · intro hdup
    refine ⟨?_, sortByKey_pairwise recKey merged, fun k => sortByKey_filter_key recKey merged k⟩
    unfold LogCollator.collate_ts
    rw [if_neg htot, hproc, exceptBind_ok, hdup]
    rfl
  · intro hdup
    refine ⟨?_, sortByKey_pairwise recKey (setImpl merged)⟩
    unfold LogCollator.collate_ts
    rw [if_neg htot, hproc, exceptBind_ok, hdup]
    rfl

/-- Witness for the amended claim C1: the witness engine with a conforming
set realization produces the sorted deduplicated records. -/
theorem claim_C1_amended_witness :
    exLC.collate_ts exPrims setRev exMap1
      = .ok ((sortByKey recKey (setRev exMerged1)).map (fun r => r.2))
    ∧ List.Pairwise (fun a b => recKey a ≤ recKey b) (sortByKey recKey (setRev exMerged1)) :=
  (claim_C1_amended exLC exPrims setRev exMap1 exMerged1 rfl (by decide)).2 rfl

/-- Claim C1 counterexample: with deduplication on (the default), there is
a conforming realization of the set step under which two records with
equal resolved instants leave `collate` in the reverse of their insertion
order — the stable sort runs over the set's iteration order, not over the
per-file fold order. -/
theorem claim_C1_counterexample :
    PySetSpec setRev
    ∧ exLC.allow_duplicates = false
    ∧ exLC.process_path_map_ts exPrims exMap1 = .ok exMerged1
    ∧ exMerged1.map (fun r => r.2) = ["T5 a", "T5 b"]
    ∧ recKey (exDT530, "T5 a") = recKey (exDT530, "T5 b")
    ∧ exLC.collate_ts exPrims setRev exMap1 = .ok ["T5 b", "T5 a"]
    ∧ (["T5 b", "T5 a"] : List String) ≠ ["T5 a", "T5 b"] :=
  ⟨setRev_spec, rfl, rfl, rfl, rfl, rfl, by decide⟩

/-- Claim C2, amended: deduplication removes duplicate records, which in
timestamp mode are (instant, formatted text) pairs, not bare formatted
lines: each record of the merged pool appears exactly once in the
deduplicated output, the deduplicated output is no longer than the
duplicate-preserving output, and the two outputs contain the same set of
formatted texts; but a formatted text may still appear several times when
distinct instants produce it. -/
theorem claim_C2_amended (lc lcA : LogCollator) (P : Prims)
    (setImpl : List (DateTime × String) → List (DateTime × String))
    (pathMap : List (String × List String)) (merged : List (DateTime × String))
    (hset : PySetSpec setImpl)
    (hdup : lc.allow_duplicates = false)
    (hA : lcA = { lc with allow_duplicates := true })
    (hproc : lc.process_path_map_ts P pathMap = .ok merged)
    (hprocA : lcA.process_path_map_ts P pathMap = .ok merged)
    (htot : totalLines pathMap ≠ 0) :
    lc.collate_ts P setImpl pathMap
      = .ok ((sortByKey recKey (setImpl merged)).map (fun r => r.2))
    ∧ lcA.collate_ts P setImpl pathMap
      = .ok ((sortByKey recKey merged).map (fun r => r.2))
    ∧ (sortByKey recKey (setImpl merged)).Nodup
    ∧ (∀ r : DateTime × String, r ∈ sortByKey recKey (setImpl merged) ↔ r ∈ merged)
    ∧ ((sortByKey recKey (setImpl merged)).map (fun r => r.2)).length
        ≤ ((sortByKey recKey merged).map (fun r => r.2)).length
    ∧ (∀ t : String, t ∈ (sortByKey recKey (setImpl merged)).map (fun r => r.2)
        ↔ t ∈ (sortByKey recKey merged).map (fun r => r.2)) := by
  refine ⟨?_, ?_, ?_, ?_, ?_, ?_⟩
  · unfold LogCollator.collate_ts
    rw [if_neg htot, hproc, exceptBind_ok, hdup]
    rfl
  · rw [hA] at hprocA ⊢
    unfold LogCollator.collate_ts
    rw [if_neg htot, hprocA, exceptBind_ok]
    rfl
  · exact (sortByKey_perm recKey (setImpl merged)).nodup_iff.mpr (hset merged).1
  · intro r
    rw [(sortByKey_perm recKey (setImpl merged)).mem_iff]
    exact (hset merged).2 r
  · rw [List.length_map, List.length_map,
      (sortByKey_perm recKey (setImpl merged)).length_eq,
      (sortByKey_perm recKey merged).length_eq]
    exact nodup_subset_length_le _ _ (hset merged).1 (fun x hx => ((hset merged).2 x).mp hx)
  · intro t
    constructor
    · intro ht
      rcases List.mem_map.mp ht with ⟨r, hr, hrt⟩
      exact List.mem_map.mpr ⟨r, (sortByKey_perm recKey merged).mem_iff.mpr
        (((hset merged).2 r).mp ((sortByKey_perm recKey (setImpl merged)).mem_iff.mp hr)), hrt⟩
    · intro ht
      rcases List.mem_map.mp ht with ⟨r, hr, hrt⟩
      exact List.mem_map.mpr ⟨r, (sortByKey_perm recKey (setImpl merged)).mem_iff.mpr
        (((hset merged).2 r).mpr ((sortByKey_perm recKey merged).mem_iff.mp hr)), hrt⟩

/-- Witness for the amended claim C2: the witness engine deduplicates the
two-record pool of `exMap2` at the record level. -/
theorem claim_C2_amended_witness :
    exLC.collate_ts exPrims pySetList exMap2
      = .ok ((sortByKey recKey (pySetList exMerged2)).map (fun r => r.2))
    ∧ (sortByKey recKey (pySetList exMerged2)).Nodup
    ∧ (∀ r : DateTime × String, r ∈ sortByKey recKey (pySetList exMerged2) ↔ r ∈ exMerged2) := by
  have h := claim_C2_amended exLC { exLC with allow_duplicates := true } exPrims pySetList
    exMap2 exMerged2 pySetList_spec rfl rfl rfl rfl (by decide)
  exact ⟨h.1, h.2.2.1, h.2.2.2.1⟩

/-- Claim C2 counterexample: in timestamp mode, two structurally different
raw lines that render to the same formatted text but to different instants
are distinct records; with `allow_duplicates = false` the formatted text
appears twice in the output, so deduplication does not operate over
formatted output lines. -/
theorem claim_C2_counterexample :
    exLC.allow_duplicates = false
    ∧ exLC.process_path_map_ts exPrims exMap2 = .ok exMerged2
    ∧ exMerged2.map (fun r => r.2) = ["T5 a", "T5 a"]
    ∧ (exDT530, "T5 a") ≠ (exDT545, "T5 a")
    ∧ exLC.collate_ts exPrims pySetList exMap2 = .ok ["T5 a", "T5 a"]
    ∧ (["T5 a", "T5 a"] : List String).count "T5 a" = 2 :=
  ⟨rfl, rfl, rfl, by decide, rfl, by decide⟩

/-- Claim C3: wraparound correction is applied exactly when the schema sets
`fix_wraparound`, a previous resolved instant exists in the same file, and
the newly resolved instant is strictly earlier than the previous one; it
then advances the instant by exactly one calendar day (the calendar
successor, worth 86400 seconds on the absolute scale for a valid date),
and in every other case leaves it unchanged, so it never decreases an
instant. -/
theorem claim_C3 (info : Schema) (prev : Option DateTime) (dt : DateTime) :
    (∀ p, prev = some p → info.fix_wraparound = true → pyLt dt p = true →
      fixWraparound info prev dt = nextDay dt)
    ∧ (prev = none → fixWraparound info prev dt = dt)
    ∧ (∀ p, prev = some p → (info.fix_wraparound = false ∨ pyLt dt p = false) →
      fixWraparound info prev dt = dt)
    ∧ (ValidDate dt → toAbs (nextDay dt) = toAbs dt + 86400000000)
    ∧ (ValidDate dt → toAbs dt ≤ toAbs (fixWraparound info prev dt)) := by
  refine ⟨?_, ?_, ?_, ?_, ?_⟩
  · intro p hp hf hlt
    rw [hp]
    unfold fixWraparound
    simp [hf, hlt]
  · intro hp
    rw [hp]
    rfl
  · intro p hp hor
    rw [hp]
    unfold fixWraparound
    rcases hor with h | h <;> simp [h]
  · intro hv
    exact nextDay_toAbs dt hv
  · intro hv
    cases prev with
    | none => exact le_refl _
    | some p =>
      show toAbs dt ≤ toAbs (if info.fix_wraparound && pyLt dt p then nextDay dt else dt)
      by_cases hc : (info.fix_wraparound && pyLt dt p) = true
      · rw [if_pos hc, nextDay_toAbs dt hv]
        omega
      · rw [if_neg hc]

/-- Witness for claim C3 at concrete inputs: with `fix_wraparound` set and
an earlier new instant the correction advances one day; with the flag
clear it does nothing; the advance is exactly 86400 seconds and never
decreases the instant. -/
theorem claim_C3_witness :
    fixWraparound { exSchemaA with fix_wraparound := true } (some exDT545) exDT530 = nextDay exDT530
    ∧ fixWraparound exSchemaA (some exDT545) exDT530 = exDT530
    ∧ toAbs (nextDay exDT530) = toAbs exDT530 + 86400000000
    ∧ toAbs exDT530 ≤ toAbs (fixWraparound { exSchemaA with fix_wraparound := true } (some exDT545) exDT530) := by
  have h := claim_C3 { exSchemaA with fix_wraparound := true } (some exDT545) exDT530
  have h2 := claim_C3 exSchemaA (some exDT545) exDT530
  exact ⟨h.1 exDT545 rfl rfl (by decide), h2.2.2.1 exDT545 rfl (Or.inl rfl),
    h.2.2.2.1 (by decide), h.2.2.2.2 (by decide)⟩
